import Mathlib

/-!
Verification of the TNEA cutoff data analyzer (`main.py`).

The development shallowly embeds the program's data model and operations:

* `Record` is a row of the normalized table (the pandas `DataFrame` produced
  by `process_data`): identity fields are nullable strings, cutoff fields are
  nullable rationals (pandas `float64`, `NaN` modeled as `none`; the marks are
  decimal literals, so rationals order them exactly as doubles do), seat
  fields are nullable integers (pandas `Int64`).
* `applyFilters` embeds `apply_filters`, `applySorting` embeds `apply_sorting`
  (including the sort-column resolution heuristic), and the sort itself embeds
  the pandas single-key `sort_values` path: `nargsort` (NaN masking,
  `na_position`, the descending-order double reversal) on top of numpy's default
  `argsort(kind=quicksort)`, which is embedded from numpy's `aquicksort`
  template (median-of-three introsort with insertion sort below 16 elements
  and a depth-limited heapsort fallback).
* `DF`/`processData` embed `process_data` at the DataFrame level (column
  renaming, missing-column fill, numeric coercion, seat `astype('Int64')`,
  column reordering).
* `runMain` embeds the exit-code and export behaviour of `main` (with the
  HTTP fetch abstracted as a function-valued parameter and argparse's
  `choices`/`parser.error` rejections modeled as exit code 2, argparse's
  documented behaviour).
-/

/-- A scalar cell value as it appears in the raw API data and in DataFrame
columns: a JSON string, a JSON number (pandas float), a pandas `Int64` value,
or null/NaN/absent. -/
inductive Cell where
  | str (s : String)
  | num (q : ℚ)
  | intg (n : ℤ)
  | na
deriving DecidableEq

/-- Sort order, the `--sort-order` choices `asc`/`desc`. -/
inductive SortOrder where
  | asc
  | desc
deriving DecidableEq

/-- Output format, the `--format` choices. -/
inductive OutFormat where
  | excel
  | pdf
  | csv
deriving DecidableEq

/-- One row of the normalized table produced by `process_data`: the 25
canonical columns of `COLUMN_MAPPING` with their normalized types. -/
structure Record where
  collegeCode : Option String
  collegeName : Option String
  branchCode : Option String
  branchName : Option String
  oc : Option ℚ
  bc : Option ℚ
  bcm : Option ℚ
  mbc : Option ℚ
  sc : Option ℚ
  sca : Option ℚ
  st : Option ℚ
  octl : Option ℤ
  ocal : Option ℤ
  bctl : Option ℤ
  bcal : Option ℤ
  bcmtl : Option ℤ
  bcmal : Option ℤ
  mbctl : Option ℤ
  mbcal : Option ℤ
  sctl : Option ℤ
  scal : Option ℤ
  scatl : Option ℤ
  scaal : Option ℤ
  sttl : Option ℤ
  stal : Option ℤ
deriving DecidableEq

/-- The parsed command-line arguments (the `argparse.Namespace` fields). -/
structure Args where
  year : ℤ
  output_file : Option String
  format : OutFormat
  list_colleges : Bool
  list_branches : Bool
  list_sortable_columns : Bool
  filter_college_code : Option String
  filter_college_name : Option String
  filter_branch_code : Option String
  filter_branch_name : Option String
  min_oc_cutoff : Option ℚ
  max_oc_cutoff : Option ℚ
  min_bc_cutoff : Option ℚ
  max_bc_cutoff : Option ℚ
  min_bcm_cutoff : Option ℚ
  max_bcm_cutoff : Option ℚ
  min_mbc_cutoff : Option ℚ
  max_mbc_cutoff : Option ℚ
  min_sc_cutoff : Option ℚ
  max_sc_cutoff : Option ℚ
  min_sca_cutoff : Option ℚ
  max_sca_cutoff : Option ℚ
  min_st_cutoff : Option ℚ
  max_st_cutoff : Option ℚ
  sort_by : Option String
  sort_order : SortOrder
deriving DecidableEq

/-- An `Args` value with no argument supplied (all optional flags absent,
argparse defaults for `format` and `sort_order`, year 2024). -/
def noArgs : Args :=
  { year := 2024
    output_file := none
    format := OutFormat.excel
    list_colleges := false
    list_branches := false
    list_sortable_columns := false
    filter_college_code := none
    filter_college_name := none
    filter_branch_code := none
    filter_branch_name := none
    min_oc_cutoff := none
    max_oc_cutoff := none
    min_bc_cutoff := none
    max_bc_cutoff := none
    min_bcm_cutoff := none
    max_bcm_cutoff := none
    min_mbc_cutoff := none
    max_mbc_cutoff := none
    min_sc_cutoff := none
    max_sc_cutoff := none
    min_sca_cutoff := none
    max_sca_cutoff := none
    min_st_cutoff := none
    max_st_cutoff := none
    sort_by := none
    sort_order := SortOrder.asc }

/-- `COLUMN_MAPPING`: the raw-field-code to canonical-column-name rename
table, in declared (Python dict insertion) order. -/
def COLUMN_MAPPING : List (String × String) :=
  [("coc", "College Code"),
   ("con", "College Name"),
   ("brc", "Branch Code"),
   ("brn", "Branch Name"),
   ("OC", "OC Cutoff"),
   ("BC", "BC Cutoff"),
   ("BCM", "BCM Cutoff"),
   ("MBC", "MBC Cutoff"),
   ("SC", "SC Cutoff"),
   ("SCA", "SCA Cutoff"),
   ("ST", "ST Cutoff"),
   ("octl", "OC Total Seats"),
   ("ocal", "OC Allotted Seats"),
   ("bctl", "BC Total Seats"),
   ("bcal", "BC Allotted Seats"),
   ("bcmtl", "BCM Total Seats"),
   ("bcmal", "BCM Allotted Seats"),
   ("mbctl", "MBC Total Seats"),
   ("mbcal", "MBC Allotted Seats"),
   ("sctl", "SC Total Seats"),
   ("scal", "SC Allotted Seats"),
   ("scatl", "SCA Total Seats"),
   ("scaal", "SCA Allotted Seats"),
   ("sttl", "ST Total Seats"),
   ("stal", "ST Allotted Seats")]

/-- `CUTOFF_COLUMNS`. -/
def CUTOFF_COLUMNS : List String :=
  ["OC Cutoff", "BC Cutoff", "BCM Cutoff", "MBC Cutoff", "SC Cutoff",
   "SCA Cutoff", "ST Cutoff"]

/-- `YEAR_TO_API_CODE`. -/
def YEAR_TO_API_CODE : List (ℤ × String) :=
  [(2024, "1C"), (2023, "2C"), (2022, "3C"), (2021, "4C"), (2020, "5C")]

/-- Python truthiness of an optional-string CLI argument: `None` and the
empty string are falsy. -/
def strTruthy : Option String → Bool
  | some s => !s.isEmpty
  | none => false

/-- Whether `pat` starts `cs` (character lists). -/
def startsWithList : List Char → List Char → Bool
  | [], _ => true
  | _ :: _, [] => false
  | p :: ps, c :: cs => p = c && startsWithList ps cs

/-- Whether `pat` occurs as a contiguous sublist of `cs` (character lists);
`containsSubList [] cs = true`, matching Python's `"" in s`. -/
def containsSubList (pat : List Char) : List Char → Bool
  | [] => startsWithList pat []
  | c :: cs => startsWithList pat (c :: cs) || containsSubList pat cs

/-- Python `a in b` on strings: `a` occurs as a contiguous substring of
`b`. -/
def strContains (hay pat : String) : Bool :=
  containsSubList pat.toList hay.toList

/-- Case-insensitive containment, Python `pat.lower() in hay.lower()`
(case folding is per character, which agrees with `str.lower` on the ASCII
column names and codes involved). -/
def strContainsCI (hay pat : String) : Bool :=
  containsSubList (pat.toList.map Char.toLower) (hay.toList.map Char.toLower)

/-- `str(x)` of a nullable string column value: `str(nan)` is `"nan"`. -/
def pyStrOfOpt : Option String → String
  | some s => s
  | none => "nan"

/-- One min/max cutoff filter stage of `apply_filters` for one community
category: `df = df[df[col] >= min]` and/or `df = df[df[col] <= max]`.
A `NaN` (`none`) cutoff compares false against any bound in pandas. -/
def cutoffFilterStep (key : Record → Option ℚ) (lo hi : Option ℚ)
    (t : List Record) : List Record :=
  let t1 := match lo with
    | some x => t.filter (fun r => match key r with
        | some v => decide (x ≤ v)
        | none => false)
    | none => t
  match hi with
  | some x => t1.filter (fun r => match key r with
      | some v => decide (v ≤ x)
      | none => false)
  | none => t1

/-- `apply_filters`: the guard on each string filter is Python truthiness
(absent or empty string skips the stage); the community loop is unrolled in
its literal order OC, BC, BCM, MBC, SC, SCA, ST.  `str.contains` is used by
the code with its regex default; it is embedded here as substring
containment, which coincides for the literal (metacharacter-free) patterns
all claims are about. -/
def applyFilters (args : Args) (df : List Record) : List Record :=
  if df.isEmpty then df else
  let df := if strTruthy args.filter_college_code then
      df.filter (fun r =>
        pyStrOfOpt r.collegeCode = args.filter_college_code.getD "")
    else df
  let df := if strTruthy args.filter_college_name then
      df.filter (fun r => match r.collegeName with
        | some v => strContainsCI v (args.filter_college_name.getD "")
        | none => false)
    else df
  let df := if strTruthy args.filter_branch_code then
      df.filter (fun r => match r.branchCode with
        | some v => v.toList.map Char.toUpper =
            (args.filter_branch_code.getD "").toList.map Char.toUpper
        | none => false)
    else df
  let df := if strTruthy args.filter_branch_name then
      df.filter (fun r => match r.branchName with
        | some v => strContainsCI v (args.filter_branch_name.getD "")
        | none => false)
    else df
  let df := cutoffFilterStep (fun r => r.oc) args.min_oc_cutoff args.max_oc_cutoff df
  let df := cutoffFilterStep (fun r => r.bc) args.min_bc_cutoff args.max_bc_cutoff df
  let df := cutoffFilterStep (fun r => r.bcm) args.min_bcm_cutoff args.max_bcm_cutoff df
  let df := cutoffFilterStep (fun r => r.mbc) args.min_mbc_cutoff args.max_mbc_cutoff df
  let df := cutoffFilterStep (fun r => r.sc) args.min_sc_cutoff args.max_sc_cutoff df
  let df := cutoffFilterStep (fun r => r.sca) args.min_sca_cutoff args.max_sca_cutoff df
  let df := cutoffFilterStep (fun r => r.st) args.min_st_cutoff args.max_st_cutoff df
  df

/-- The 7 community categories. -/
inductive Comm where
  | oc
  | bc
  | bcm
  | mbc
  | sc
  | sca
  | st
deriving DecidableEq

/-- The cutoff field of a record for a community category. -/
def cutoffField : Comm → Record → Option ℚ
  | Comm.oc, r => r.oc
  | Comm.bc, r => r.bc
  | Comm.bcm, r => r.bcm
  | Comm.mbc, r => r.mbc
  | Comm.sc, r => r.sc
  | Comm.sca, r => r.sca
  | Comm.st, r => r.st

/-- Arguments with only the min/max cutoff bounds of one community
category supplied. -/
def mkCutoffArgs (c : Comm) (lo hi : Option ℚ) : Args :=
  match c with
  | Comm.oc => { noArgs with min_oc_cutoff := lo, max_oc_cutoff := hi }
  | Comm.bc => { noArgs with min_bc_cutoff := lo, max_bc_cutoff := hi }
  | Comm.bcm => { noArgs with min_bcm_cutoff := lo, max_bcm_cutoff := hi }
  | Comm.mbc => { noArgs with min_mbc_cutoff := lo, max_mbc_cutoff := hi }
  | Comm.sc => { noArgs with min_sc_cutoff := lo, max_sc_cutoff := hi }
  | Comm.sca => { noArgs with min_sca_cutoff := lo, max_sca_cutoff := hi }
  | Comm.st => { noArgs with min_st_cutoff := lo, max_st_cutoff := hi }

/-- An orderable sort-key value of a single-typed DataFrame column. -/
inductive SVal where
  | str (s : String)
  | num (q : ℚ)
deriving DecidableEq

/-- The strict comparison used by the numpy argsort on a column's values:
rationals by numeric order (pandas float columns hold no NaN by the time the
argsort runs), strings lexicographically. -/
def ltSV : SVal → SVal → Bool
  | SVal.num a, SVal.num b => decide (a < b)
  | SVal.str a, SVal.str b => decide (a < b)
  | _, _ => false

/-- Bounds-checked swap of two positions of the tag array (both indices are
in range at every call site, as in the C original). -/
def swapN (a : Array ℕ) (i j : ℕ) : Array ℕ :=
  if h : i < a.size ∧ j < a.size then a.swap ⟨i, h.1⟩ ⟨j, h.2⟩ else a

/-- `v[tags[i]]`, the key value under tag position `i`. -/
def valAt (v : Array SVal) (tags : Array ℕ) (i : ℕ) : SVal :=
  v.getD (tags.getD i 0) (SVal.num 0)

/-- Inner while loop of the insertion sort of `aquicksort`: bubble the
element at `pj` left while it is strictly smaller than its left neighbour,
never moving below `pl` (the shift-and-place of the C original realised as
adjacent swaps, which yields the same array). -/
def insBubble (v : Array SVal) (pl : ℕ) : ℕ → Array ℕ → ℕ → Array ℕ
  | 0, tags, _ => tags
  | fuel + 1, tags, pj =>
    if pl < pj ∧ ltSV (valAt v tags pj) (valAt v tags (pj - 1)) = true then
      insBubble v pl fuel (swapN tags pj (pj - 1)) (pj - 1)
    else tags

/-- The insertion sort of `aquicksort` over the tag segment `[pl, pr]`
(inclusive), used for segments of at most `SMALL_QUICKSORT + 1 = 16`
elements. -/
def insRangeGo (v : Array SVal) (pl pr : ℕ) : ℕ → Array ℕ → ℕ → Array ℕ
  | 0, tags, _ => tags
  | fuel + 1, tags, pi =>
    if pi ≤ pr then insRangeGo v pl pr fuel (insBubble v pl pi tags pi) (pi + 1)
    else tags

/-- Insertion sort of `tags[pl..pr]`. -/
def insRange (v : Array SVal) (tags : Array ℕ) (pl pr : ℕ) : Array ℕ :=
  insRangeGo v pl pr (pr + 1 - pl) tags (pl + 1)

/-- `do ++pi; while (v[*pi] < vp);` of the partition scan: the first
position strictly above the current one whose value is not below the
pivot. -/
def scanUp (v : Array SVal) (tags : Array ℕ) (vp : SVal) : ℕ → ℕ → ℕ
  | 0, pi => pi
  | fuel + 1, pi =>
    if ltSV (valAt v tags (pi + 1)) vp = true then scanUp v tags vp fuel (pi + 1)
    else pi + 1

/-- `do --pj; while (vp < v[*pj]);` of the partition scan. -/
def scanDown (v : Array SVal) (tags : Array ℕ) (vp : SVal) : ℕ → ℕ → ℕ
  | 0, pj => pj
  | fuel + 1, pj =>
    if ltSV vp (valAt v tags (pj - 1)) = true then scanDown v tags vp fuel (pj - 1)
    else pj - 1

/-- The inner `for(;;)` exchange loop of the Hoare partition; returns the
updated tags and the final `pi`. -/
def hoareLoop (v : Array SVal) (vp : SVal) : ℕ → Array ℕ → ℕ → ℕ → Array ℕ × ℕ
  | 0, tags, pi, _ => (tags, pi)
  | fuel + 1, tags, pi, pj =>
    let pi2 := scanUp v tags vp tags.size pi
    let pj2 := scanDown v tags vp tags.size pj
    if pi2 ≥ pj2 then (tags, pi2)
    else hoareLoop v vp fuel (swapN tags pi2 pj2) pi2 pj2

/-- The `while ((pr - pl) > SMALL_QUICKSORT)` loop of `aquicksort`
(SMALL_QUICKSORT = 15): median-of-three pivot, Hoare partition, push the
larger side, continue with the smaller; returns the updated tags, the final
small segment and the deferred-segment stack. -/
def partitionLoop (v : Array SVal) :
    ℕ → Array ℕ → ℕ → ℕ → List (ℕ × ℕ) → Array ℕ × ℕ × ℕ × List (ℕ × ℕ)
  | 0, tags, pl, pr, stack => (tags, pl, pr, stack)
  | fuel + 1, tags, pl, pr, stack =>
    if pr - pl > 15 then
      let pm := pl + (pr - pl) / 2
      let tags := if ltSV (valAt v tags pm) (valAt v tags pl) = true then
          swapN tags pm pl else tags
      let tags := if ltSV (valAt v tags pr) (valAt v tags pm) = true then
          swapN tags pr pm else tags
      let tags := if ltSV (valAt v tags pm) (valAt v tags pl) = true then
          swapN tags pm pl else tags
      let vp := valAt v tags pm
      let tags := swapN tags pm (pr - 1)
      let res := hoareLoop v vp tags.size tags pl (pr - 1)
      let tags := swapN res.1 res.2 (pr - 1)
      let pi := res.2
      if pi - pl < pr - pi then
        partitionLoop v fuel tags pl (pi - 1) ((pi + 1, pr) :: stack)
      else
        partitionLoop v fuel tags (pi + 1) pr ((pl, pi - 1) :: stack)
    else (tags, pl, pr, stack)

/-- 0-based index of the 1-based heap cell `k` of the segment starting at
`pl` (`a = tosort - 1` in the C original). -/
def heapIdx (pl k : ℕ) : ℕ := pl + k - 1

/-- The sift-down loop of `aheapsort` on the heap of size `n` rooted in the
segment at `pl` (shift-and-place realised as swaps). -/
def siftDown (v : Array SVal) (pl n : ℕ) : ℕ → Array ℕ → ℕ → Array ℕ
  | 0, tags, _ => tags
  | fuel + 1, tags, i =>
    let j := 2 * i
    if j ≤ n then
      let j := if j < n ∧
          ltSV (valAt v tags (heapIdx pl j)) (valAt v tags (heapIdx pl (j + 1))) = true
        then j + 1 else j
      if ltSV (valAt v tags (heapIdx pl i)) (valAt v tags (heapIdx pl j)) = true then
        siftDown v pl n fuel (swapN tags (heapIdx pl i) (heapIdx pl j)) j
      else tags
    else tags

/-- Heap-construction loop of `aheapsort` (`l` from `n / 2` down to 1). -/
def heapBuild (v : Array SVal) (pl n : ℕ) : ℕ → Array ℕ → Array ℕ
  | 0, tags => tags
  | l + 1, tags => heapBuild v pl n l (siftDown v pl n (n + 1) tags (l + 1))

/-- Extraction loop of `aheapsort` (`n` down to 2): swap the root with the
last heap cell, shrink the heap, re-sift the root. -/
def heapExtract (v : Array SVal) (pl : ℕ) : ℕ → Array ℕ → Array ℕ
  | 0, tags => tags
  | 1, tags => tags
  | n + 2, tags =>
    let tags := swapN tags (heapIdx pl 1) (heapIdx pl (n + 2))
    heapExtract v pl (n + 1) (siftDown v pl (n + 1) (n + 2) tags 1)

/-- numpy `aheapsort` on the tag segment `[pl, pr]`, the introsort
depth-limit fallback. -/
def aheapSeg (v : Array SVal) (tags : Array ℕ) (pl pr : ℕ) : Array ℕ :=
  let n := pr + 1 - pl
  heapExtract v pl n (heapBuild v pl n (n / 2) tags)

/-- `npy_get_msb`: the position of the most significant bit, counted by
halving (`while (unum >>= 1) depth_limit++`), fueled by the argument
itself (each pass at least halves the value). -/
def msbGo : ℕ → ℕ → ℕ → ℕ
  | 0, _, acc => acc
  | fuel + 1, n, acc => if n ≥ 2 then msbGo fuel (n / 2) (acc + 1) else acc

/-- `npy_get_msb(num) * 2`, the introsort depth limit. -/
def depthLimit (num : ℕ) : ℤ := 2 * (msbGo num num 0)

/-- The outer `for(;;)` loop of `aquicksort`: the depth budget is tested and
decremented once per iteration; an exhausted budget heap-sorts the current
segment; otherwise the segment is partitioned down to at most 16 elements
and finished by insertion sort; then a deferred segment is popped. -/
def aqsMain (v : Array SVal) : ℕ → Array ℕ → ℕ → ℕ → List (ℕ × ℕ) → ℤ → Array ℕ
  | 0, tags, _, _, _, _ => tags
  | fuel + 1, tags, pl, pr, stack, depth =>
    if depth < 0 then
      let tags := aheapSeg v tags pl pr
      match stack with
      | [] => tags
      | (pl2, pr2) :: rest => aqsMain v fuel tags pl2 pr2 rest (depth - 1)
    else
      let res := partitionLoop v (pr + 1 - pl) tags pl pr stack
      let tags := insRange v res.1 res.2.1 res.2.2.1
      match res.2.2.2 with
      | [] => tags
      | (pl2, pr2) :: rest => aqsMain v fuel tags pl2 pr2 rest (depth - 1)

/-- numpy `argsort(kind='quicksort')`: `aquicksort` from numpy's npysort
template, applied to the whole value array, returning the tag (index)
array.  The fuel bounds the number of outer-loop iterations, which never
exceeds one plus the number of partitions (each partition pushes one
deferred segment and strictly shrinks the current one). -/
def aquicksort (v : Array SVal) : Array ℕ :=
  let num := v.size
  aqsMain v (2 * num + 2) (Array.range num) 0 (num - 1) [] (depthLimit num)

/-- Indices of rows whose key is present (`idx[~mask]` of pandas
`nargsort`), in row order. -/
def nonNanIdx (key : Record → Option SVal) (t : List Record) : List ℕ :=
  (List.range t.length).filter (fun i => match t.get? i with
    | some r => (key r).isSome
    | none => false)

/-- Indices of rows whose key is NaN (`np.nonzero(mask)[0]`), in row
order. -/
def nanIdx (key : Record → Option SVal) (t : List Record) : List ℕ :=
  (List.range t.length).filter (fun i => match t.get? i with
    | some r => (key r).isNone
    | none => false)

/-- pandas `nargsort`: for a descending sort, first reverse both the
non-NaN values and their row indices, argsort ascending, map the tags back
to row indices through the (possibly reversed) index list, and reverse the
indexer again - the double reversal keeps tie groups in original order
whenever the underlying argsort is stable; then append the NaN row indices
(`na_position='last'`) or prepend them (`'first'`).  numpy's fancy indexing
`non_nan_idx[argsorted]` is rendered with `filterMap`; the argsort output
is a permutation of the tag range, so no lookup ever misses. -/
def nargsort (key : Record → Option SVal) (t : List Record)
    (ascending naLast : Bool) : List ℕ :=
  let vals0 := t.filterMap key
  let nnIdx0 := nonNanIdx key t
  let vals := if ascending then vals0 else vals0.reverse
  let nnIdx := if ascending then nnIdx0 else nnIdx0.reverse
  let sortedTags := (aquicksort vals.toArray).toList
  let indexer := sortedTags.filterMap (fun tg => nnIdx.get? tg)
  let indexer := if ascending then indexer else indexer.reverse
  if naLast then indexer ++ nanIdx key t else nanIdx key t ++ indexer

/-- `DataFrame.sort_values` on a single column: take the rows in `nargsort`
order (again a permutation, so no lookup misses). -/
def sortByKey (key : Record → Option SVal) (t : List Record)
    (ascending naLast : Bool) : List Record :=
  (nargsort key t ascending naLast).filterMap (fun i => t.get? i)

/-- The key extractor of each canonical column of the normalized table, in
declared order: identity columns are string-valued, cutoff columns
float-valued, seat columns `Int64`-valued (ordered numerically). -/
def colKeyList : List (String × (Record → Option SVal)) :=
  [("College Code", fun r => r.collegeCode.map SVal.str),
   ("College Name", fun r => r.collegeName.map SVal.str),
   ("Branch Code", fun r => r.branchCode.map SVal.str),
   ("Branch Name", fun r => r.branchName.map SVal.str),
   ("OC Cutoff", fun r => r.oc.map SVal.num),
   ("BC Cutoff", fun r => r.bc.map SVal.num),
   ("BCM Cutoff", fun r => r.bcm.map SVal.num),
   ("MBC Cutoff", fun r => r.mbc.map SVal.num),
   ("SC Cutoff", fun r => r.sc.map SVal.num),
   ("SCA Cutoff", fun r => r.sca.map SVal.num),
   ("ST Cutoff", fun r => r.st.map SVal.num),
   ("OC Total Seats", fun r => r.octl.map (fun n => SVal.num (n : ℚ))),
   ("OC Allotted Seats", fun r => r.ocal.map (fun n => SVal.num (n : ℚ))),
   ("BC Total Seats", fun r => r.bctl.map (fun n => SVal.num (n : ℚ))),
   ("BC Allotted Seats", fun r => r.bcal.map (fun n => SVal.num (n : ℚ))),
   ("BCM Total Seats", fun r => r.bcmtl.map (fun n => SVal.num (n : ℚ))),
   ("BCM Allotted Seats", fun r => r.bcmal.map (fun n => SVal.num (n : ℚ))),
   ("MBC Total Seats", fun r => r.mbctl.map (fun n => SVal.num (n : ℚ))),
   ("MBC Allotted Seats", fun r => r.mbcal.map (fun n => SVal.num (n : ℚ))),
   ("SC Total Seats", fun r => r.sctl.map (fun n => SVal.num (n : ℚ))),
   ("SC Allotted Seats", fun r => r.scal.map (fun n => SVal.num (n : ℚ))),
   ("SCA Total Seats", fun r => r.scatl.map (fun n => SVal.num (n : ℚ))),
   ("SCA Allotted Seats", fun r => r.scaal.map (fun n => SVal.num (n : ℚ))),
   ("ST Total Seats", fun r => r.sttl.map (fun n => SVal.num (n : ℚ))),
   ("ST Allotted Seats", fun r => r.stal.map (fun n => SVal.num (n : ℚ)))]

/-- The key extractor of a column of the normalized table, defined for the
canonical columns. -/
def colKey (c : String) : Option (Record → Option SVal) :=
  colKeyList.lookup c

/-- Sort-column resolution of `apply_sorting`: exact match against the
mapped (canonical) names; else the first entry of `COLUMN_MAPPING`, in
declared order, whose canonical name or raw field code contains `sort_by`
case-insensitively; else a final fallback on the raw keys (dead in practice,
kept from the code). -/
def resolveSortColumn (s : String) : Option String :=
  if s ∈ COLUMN_MAPPING.map Prod.snd then some s
  else
    match COLUMN_MAPPING.find? (fun kv =>
        strContainsCI kv.2 s || strContainsCI kv.1 s) with
    | some kv => some kv.2
    | none =>
      match COLUMN_MAPPING.lookup s with
      | some c => some c
      | none => none

/-- `apply_sorting`: an empty frame or an absent/empty `--sort-by` returns
the frame unchanged, as does a failed column resolution (after a warning on
stderr).  Otherwise `na_position` is `'last'` for ascending and `'first'`
for descending on cutoff columns, and always `'last'` on other columns, and
the frame is sorted on the resolved column. -/
def applySorting (args : Args) (df : List Record) : List Record :=
  if df.isEmpty || !strTruthy args.sort_by then df else
  match resolveSortColumn (args.sort_by.getD "") with
  | none => df
  | some c =>
    match colKey c with
    | none => df
    | some key =>
      let ascending := args.sort_order == SortOrder.asc
      let naLast := if c ∈ CUTOFF_COLUMNS then ascending else true
      sortByKey key df ascending naLast

/-- Strip leading and trailing whitespace from a character list (the
`str.strip` pandas applies before parsing). -/
def trimChars (l : List Char) : List Char :=
  ((l.dropWhile Char.isWhitespace).reverse.dropWhile Char.isWhitespace).reverse

/-- Value of a digit string, most significant first. -/
def digitsVal (ds : List Char) : ℕ :=
  ds.foldl (fun a c => 10 * a + (c.toNat - 48)) 0

/-- Split a character list at the first occurrence of any of the given
characters. -/
def splitFirst (sep : List Char) : List Char → Option (List Char × Char × List Char)
  | [] => none
  | c :: cs =>
    if c ∈ sep then some ([], c, cs)
    else match splitFirst sep cs with
      | some (a, s, b) => some (c :: a, s, b)
      | none => none

/-- Consume an optional leading sign; returns (negative, rest). -/
def parseSign : List Char → Bool × List Char
  | '-' :: cs => (true, cs)
  | '+' :: cs => (false, cs)
  | cs => (false, cs)

/-- Parse an unsigned decimal mantissa (digits with at most one point, at
least one digit); returns the digit value and the number of fractional
digits. -/
def parseMant (cs : List Char) : Option (ℕ × ℕ) :=
  match splitFirst ['.'] cs with
  | some (ip, _, fp) =>
    if ip.all Char.isDigit && fp.all Char.isDigit && (ip ≠ [] ∨ fp ≠ []) then
      some (digitsVal (ip ++ fp), fp.length)
    else none
  | none =>
    if cs ≠ [] && cs.all Char.isDigit then some (digitsVal cs, 0) else none

/-- The exact rational `sign * m * 10 ^ (e - fl)` of a parsed decimal,
assembled with `mkRat` so that it evaluates. -/
def ratOfParts (neg : Bool) (m : ℕ) (fl : ℕ) (e : ℤ) : ℚ :=
  let sgn : ℤ := if neg then -1 else 1
  let k : ℤ := e - (fl : ℤ)
  if 0 ≤ k then mkRat (sgn * (m : ℤ) * 10 ^ k.toNat) 1
  else mkRat (sgn * (m : ℤ)) (10 ^ (-k).toNat)

/-- The decimal-float parse behind `pd.to_numeric`: surrounding whitespace
stripped, optional sign, decimal mantissa, optional signed exponent; any
other shape fails.  (Digit-group underscores and the `inf`/`nan` words are
not modeled; no claim touches them.)  The parsed value is exact, as a
rational. -/
def parseFloat (s : String) : Option ℚ :=
  let cs0 := trimChars s.toList
  let sg := parseSign cs0
  let finish : ℕ → ℕ → ℤ → Option ℚ := fun m fl e =>
    some (ratOfParts sg.1 m fl e)
  match splitFirst ['e', 'E'] sg.2 with
  | some (mant, _, ex) =>
    match parseMant mant with
    | some (m, fl) =>
      let esg := parseSign ex
      if esg.2 ≠ [] && esg.2.all Char.isDigit then
        finish m fl ((if esg.1 then -1 else 1) * (digitsVal esg.2 : ℤ))
      else none
    | none => none
  | none =>
    match parseMant sg.2 with
    | some (m, fl) => finish m fl 0
    | none => none

/-- A DataFrame: column names in order, and rows of labelled cells (each
row's labels run in column order). -/
structure DF where
  cols : List String
  rows : List (List (String × Cell))
deriving DecidableEq

/-- Column order of `pd.DataFrame(list_of_dicts)`: record keys in
first-seen order. -/
def rawCols (raw : List (List (String × Cell))) : List String :=
  raw.foldl (fun acc r => acc ++ ((r.map Prod.fst).filter (fun c => !acc.contains c))) []

/-- One row of `pd.DataFrame(list_of_dicts)`: the cell of each column, null
when the record lacks the key. -/
def buildRow (cols : List String) (r : List (String × Cell)) : List (String × Cell) :=
  cols.map (fun c => (c, (r.lookup c).getD Cell.na))

/-- `pd.DataFrame(raw_data)`. -/
def buildDF (raw : List (List (String × Cell))) : DF :=
  { cols := rawCols raw, rows := raw.map (buildRow (rawCols raw)) }

/-- `df.drop(columns=[c])`, applied only when the column exists. -/
def dropColDF (df : DF) (c : String) : DF :=
  if df.cols.contains c then
    { cols := df.cols.filter (fun x => x ≠ c),
      rows := df.rows.map (fun r => r.filter (fun p => p.1 ≠ c)) }
  else df

/-- The rename of one column label under `COLUMN_MAPPING`. -/
def renameName (c : String) : String := (COLUMN_MAPPING.lookup c).getD c

/-- `df.rename(columns=COLUMN_MAPPING)`. -/
def renameDF (df : DF) : DF :=
  { cols := df.cols.map renameName,
    rows := df.rows.map (fun r => r.map (fun p => (renameName p.1, p.2))) }

/-- `df[c] = pd.NA` for a column not yet present (appended at the end). -/
def addColNA (df : DF) (c : String) : DF :=
  { cols := df.cols ++ [c], rows := df.rows.map (fun r => r ++ [(c, Cell.na)]) }

/-- The loop adding every mapped column that is missing, in declared
order. -/
def addMissing (df : DF) : DF :=
  COLUMN_MAPPING.foldl (fun d kv => if d.cols.contains kv.2 then d else addColNA d kv.2) df

/-- Apply a cell transformation to one column. -/
def mapColDF (df : DF) (c : String) (f : Cell → Cell) : DF :=
  { cols := df.cols,
    rows := df.rows.map (fun r => r.map (fun p => if p.1 = c then (p.1, f p.2) else p)) }

/-- `pd.to_numeric(col, errors='coerce')` on one cell: numbers pass through
(`Int64` widens to float), strings parse as decimal floats (null on
failure), nulls stay null.  Failure never raises. -/
def coerceNum : Cell → Cell
  | Cell.str s =>
    match parseFloat s with
    | some q => Cell.num q
    | none => Cell.na
  | Cell.num q => Cell.num q
  | Cell.intg n => Cell.num (n : ℚ)
  | Cell.na => Cell.na

/-- The cells of one column. -/
def getColDF (df : DF) (c : String) : List Cell :=
  df.rows.map (fun r => (r.lookup c).getD Cell.na)

/-- `.astype('Int64')` on a numerically-coerced seat column: every float
must be exactly integral, otherwise pandas raises
`TypeError: cannot safely cast non-equivalent float64 to int64`. -/
def astypeInt64 (df : DF) (c : String) : Except String DF :=
  if (getColDF df c).any (fun x => match x with
      | Cell.num q => decide (q.den ≠ 1)
      | _ => false) then
    Except.error "cannot safely cast non-equivalent float64 to int64"
  else
    Except.ok (mapColDF df c (fun x => match x with
      | Cell.num q => Cell.intg q.num
      | Cell.str _ => Cell.na
      | Cell.intg n => Cell.intg n
      | Cell.na => Cell.na))

/-- `seat_cols`: mapped columns whose name contains `"Seats"` and that are
not cutoff columns. -/
def seatCols : List String :=
  (COLUMN_MAPPING.map Prod.snd).filter
    (fun c => strContains c "Seats" && !CUTOFF_COLUMNS.contains c)

/-- `df[ordered + extra]`: reindex to the given column list. -/
def selectColsDF (df : DF) (cs : List String) : DF :=
  { cols := cs,
    rows := df.rows.map (fun r => cs.map (fun c => (c, (r.lookup c).getD Cell.na))) }

/-- `process_data`: empty input gives an empty frame; otherwise drop `_id`
if present, rename via `COLUMN_MAPPING`, add every missing mapped column as
null, coerce the cutoff columns to numeric, coerce the seat columns to
numeric and cast them to `Int64` (which can raise - propagated as
`Except.error`), then reorder columns to mapped order first with the
remaining ones appended. -/
def processData (raw : List (List (String × Cell))) : Except String DF :=
  if raw.isEmpty then Except.ok { cols := [], rows := [] } else
  let df0 := buildDF raw
  let df1 := dropColDF df0 "_id"
  let df2 := renameDF df1
  let df3 := addMissing df2
  let df4 := CUTOFF_COLUMNS.foldl
    (fun d c => if d.cols.contains c then mapColDF d c coerceNum else d) df3
  match seatCols.foldlM
      (fun d c => if d.cols.contains c then astypeInt64 (mapColDF d c coerceNum) c
        else Except.ok d) df4 with
  | Except.error e => Except.error e
  | Except.ok df5 =>
    let ordered := (COLUMN_MAPPING.map Prod.snd).filter (fun c => df5.cols.contains c)
    let extra := df5.cols.filter (fun c => !ordered.contains c)
    Except.ok (selectColsDF df5 (ordered ++ extra))

/-- View a normalized cell as a nullable string (Python `str()` of a float
is rendered via `toString`; its exact spelling is irrelevant to every
claim). -/
def cellToStrOpt : Cell → Option String
  | Cell.str s => some s
  | Cell.num q => some (toString q)
  | Cell.intg n => some (toString n)
  | Cell.na => none

/-- View a normalized cell as a nullable float. -/
def cellToRatOpt : Cell → Option ℚ
  | Cell.num q => some q
  | Cell.intg n => some ((n : ℚ))
  | _ => none

/-- View a normalized cell as a nullable `Int64`. -/
def cellToIntOpt : Cell → Option ℤ
  | Cell.intg n => some n
  | Cell.num q => some q.num
  | _ => none

/-- The cell of a labelled row at a column, null when absent. -/
def getCell (r : List (String × Cell)) (c : String) : Cell :=
  (r.lookup c).getD Cell.na

/-- Typed view of a normalized DataFrame row (fields in `Record` order). -/
def recordOfRow (r : List (String × Cell)) : Record :=
  Record.mk
    (cellToStrOpt (getCell r "College Code"))
    (cellToStrOpt (getCell r "College Name"))
    (cellToStrOpt (getCell r "Branch Code"))
    (cellToStrOpt (getCell r "Branch Name"))
    (cellToRatOpt (getCell r "OC Cutoff"))
    (cellToRatOpt (getCell r "BC Cutoff"))
    (cellToRatOpt (getCell r "BCM Cutoff"))
    (cellToRatOpt (getCell r "MBC Cutoff"))
    (cellToRatOpt (getCell r "SC Cutoff"))
    (cellToRatOpt (getCell r "SCA Cutoff"))
    (cellToRatOpt (getCell r "ST Cutoff"))
    (cellToIntOpt (getCell r "OC Total Seats"))
    (cellToIntOpt (getCell r "OC Allotted Seats"))
    (cellToIntOpt (getCell r "BC Total Seats"))
    (cellToIntOpt (getCell r "BC Allotted Seats"))
    (cellToIntOpt (getCell r "BCM Total Seats"))
    (cellToIntOpt (getCell r "BCM Allotted Seats"))
    (cellToIntOpt (getCell r "MBC Total Seats"))
    (cellToIntOpt (getCell r "MBC Allotted Seats"))
    (cellToIntOpt (getCell r "SC Total Seats"))
    (cellToIntOpt (getCell r "SC Allotted Seats"))
    (cellToIntOpt (getCell r "SCA Total Seats"))
    (cellToIntOpt (getCell r "SCA Allotted Seats"))
    (cellToIntOpt (getCell r "ST Total Seats"))
    (cellToIntOpt (getCell r "ST Allotted Seats"))

/-- Observable side effects of one run. -/
inductive RunEvent where
  | listedSortable
  | listedColleges
  | listedBranches
  | saved (f : OutFormat) (t : List Record)
  | pdfSkipped
deriving DecidableEq

/-- Exit code and observable effects of one run. -/
structure RunOutcome where
  exitCode : ℕ
  events : List RunEvent
deriving DecidableEq

/-- Outcome of `fetch_tnea_data`: `failed` covers every `return None` path
(HTTP error, connection error, timeout, malformed JSON). -/
inductive FetchResult where
  | failed
  | ok (data : List (List (String × Cell)))

/-- The process behaviour of `main`, parameterized by the HTTP fetch (a
function from year API code to outcome) and by whether `xhtml2pdf` imported
(`pisa is not None`).  argparse rejections - the `choices` check on
`--year` and `parser.error` on a missing `--output-file` - exit with
argparse's code 2; an uncaught exception escaping `process_data` makes the
interpreter exit with code 1. -/
def runMain (args : Args) (fetch : String → FetchResult) (pisa : Bool) : RunOutcome :=
  if (YEAR_TO_API_CODE.lookup args.year).isNone then { exitCode := 2, events := [] }
  else if args.list_sortable_columns then
    { exitCode := 0, events := [RunEvent.listedSortable] }
  else if !(args.list_colleges || args.list_branches) && !strTruthy args.output_file then
    { exitCode := 2, events := [] }
  else
    match YEAR_TO_API_CODE.lookup args.year with
    | none => { exitCode := 1, events := [] }
    | some code =>
      match fetch code with
      | FetchResult.failed => { exitCode := 1, events := [] }
      | FetchResult.ok [] => { exitCode := 0, events := [] }
      | FetchResult.ok raw =>
        match processData raw with
        | Except.error _ => { exitCode := 1, events := [] }
        | Except.ok df =>
          if df.rows.isEmpty then { exitCode := 0, events := [] }
          else if args.list_colleges then
            { exitCode := 0, events := [RunEvent.listedColleges] }
          else if args.list_branches then
            { exitCode := 0, events := [RunEvent.listedBranches] }
          else
            let t := df.rows.map recordOfRow
            let tf := applyFilters args t
            if tf.isEmpty then { exitCode := 0, events := [] }
            else
              let ts := applySorting args tf
              if strTruthy args.output_file then
                match args.format with
                | OutFormat.excel =>
                  { exitCode := 0, events := [RunEvent.saved OutFormat.excel ts] }
                | OutFormat.csv =>
                  { exitCode := 0, events := [RunEvent.saved OutFormat.csv ts] }
                | OutFormat.pdf =>
                  if pisa then { exitCode := 0, events := [RunEvent.saved OutFormat.pdf ts] }
                  else { exitCode := 0, events := [RunEvent.pdfSkipped] }
              else { exitCode := 0, events := [] }

/-- The canonical column names, in declared order. -/
def mappedValues : List String := COLUMN_MAPPING.map Prod.snd

/-- The raw field codes, in declared order. -/
def mappedKeys : List String := COLUMN_MAPPING.map Prod.fst

/-- The raw columns that survive normalization unrenamed: everything except
`_id` and the mapped field codes, in first-seen order. -/
def extraRawCols (raw : List (List (String × Cell))) : List String :=
  (rawCols raw).filter (fun c => c ≠ "_id" && !mappedKeys.contains c)

/-- The column of cell values a raw column contributes, row by row. -/
def rawColumn (raw : List (List (String × Cell))) (c : String) : List Cell :=
  raw.map (fun r => (r.lookup c).getD Cell.na)

/-- The table splits into non-null-key rows followed by null-key rows. -/
def nullsLastSplit (key : Record → Option SVal) (l : List Record) : Prop :=
  ∃ a b, l = a ++ b ∧ (∀ r ∈ a, (key r).isSome = true) ∧ (∀ r ∈ b, key r = none)

/-- The table splits into null-key rows followed by non-null-key rows. -/
def nullsFirstSplit (key : Record → Option SVal) (l : List Record) : Prop :=
  ∃ a b, l = a ++ b ∧ (∀ r ∈ a, key r = none) ∧ (∀ r ∈ b, (key r).isSome = true)

/-- What a missing renderer changes: a performed PDF export becomes the
skip-with-warning; nothing else. -/
def pdfAdjust : RunEvent → RunEvent
  | RunEvent.saved OutFormat.pdf _ => RunEvent.pdfSkipped
  | e => e

/-- The run gets past the terminal `--list-sortable-columns` action and the
`parser.error` output-file check, and so reaches the fetch. -/
def passesArgChecks (a : Args) : Prop :=
  a.list_sortable_columns = false ∧
  (a.list_colleges = true ∨ a.list_branches = true ∨ strTruthy a.output_file = true)

/-- The sort key of the `OC Cutoff` column. -/
def ocKey : Record → Option SVal := fun r => r.oc.map SVal.num

/-- Arguments that only request a sort. -/
def sortArgs (c : String) (o : SortOrder) : Args :=
  { noArgs with sort_by := some c, sort_order := o }

/-- A sample record with the given college code and OC cutoff, all other
fields null. -/
def sampleRec (code : String) (ocv : Option ℚ) : Record :=
  Record.mk (some code) none none none ocv none none none none none none
    none none none none none none none none none none none none none none

/-- The spec's three-row sort example: OC cutoffs 200, null, 150. -/
def tThree : List Record :=
  [sampleRec "a" (some 200), sampleRec "b" none, sampleRec "c" (some 150)]

/-- Two distinct records with the same OC cutoff. -/
def tiePair : List Record := [sampleRec "1" (some 5), sampleRec "2" (some 5)]

/-- Seventeen distinct records sharing the OC cutoff value 0: one more row
than the insertion-sort threshold of numpy's quicksort. -/
def tie17 : List Record :=
  ["r00", "r01", "r02", "r03", "r04", "r05", "r06", "r07", "r08", "r09",
   "r10", "r11", "r12", "r13", "r14", "r15", "r16"].map
    (fun s => sampleRec s (some 0))

/-- The value array extracted from the seventeen-row tie table: seventeen
equal zero keys (also the default of every out-of-range read). -/
def zeroVals : Array SVal := (List.replicate 17 (SVal.num 0)).toArray

/-- Tag-array checkpoints of the quicksort partition of seventeen equal
keys: the initial range, the pivot move to position 15, the seven exchange
steps of the Hoare scan, and the final pivot placement. -/
def qTag0 : Array ℕ := Array.mk [0,1,2,3,4,5,6,7,8,9,10,11,12,13,14,15,16]

def qTagP : Array ℕ := Array.mk [0,1,2,3,4,5,6,7,15,9,10,11,12,13,14,8,16]

def qTagH1 : Array ℕ := Array.mk [0,14,2,3,4,5,6,7,15,9,10,11,12,13,1,8,16]

def qTagH2 : Array ℕ := Array.mk [0,14,13,3,4,5,6,7,15,9,10,11,12,2,1,8,16]

def qTagH3 : Array ℕ := Array.mk [0,14,13,12,4,5,6,7,15,9,10,11,3,2,1,8,16]

def qTagH4 : Array ℕ := Array.mk [0,14,13,12,11,5,6,7,15,9,10,4,3,2,1,8,16]

def qTagH5 : Array ℕ := Array.mk [0,14,13,12,11,10,6,7,15,9,5,4,3,2,1,8,16]

def qTagH6 : Array ℕ := Array.mk [0,14,13,12,11,10,9,7,15,6,5,4,3,2,1,8,16]

def qTagH7 : Array ℕ := Array.mk [0,14,13,12,11,10,9,15,7,6,5,4,3,2,1,8,16]

def qTagF : Array ℕ := Array.mk [0,14,13,12,11,10,9,15,8,6,5,4,3,2,1,7,16]

/-- A raw input whose fractional seat value makes `process_data` raise. -/
def badSeatRaw : List (List (String × Cell)) :=
  [[("coc", Cell.str "5"), ("stal", Cell.str "5.7")]]

/-- A raw input with an `_id`, mapped fields and an unmapped extra field. -/
def rawSample : List (List (String × Cell)) :=
  [[("_id", Cell.str "x1"), ("coc", Cell.str "1"), ("zzz", Cell.str "keep"),
    ("OC", Cell.str "171.5")],
   [("coc", Cell.str "2"), ("zzz", Cell.num 9)]]

/-- The normalized frame of `rawSample`. -/
def dfSample : DF := ((processData rawSample).toOption).getD (DF.mk [] [])

/-- Arguments with an unsupported year. -/
def args2019 : Args := { noArgs with year := 2019, output_file := some "o.xlsx" }

/-- Arguments that request a plain export (the default format). -/
def exportArgs : Args := { noArgs with output_file := some "o.xlsx" }

/-- A fetch stub with a constant outcome. -/
def fetchConst (r : FetchResult) : String → FetchResult := fun _ => r

/-- No filter predicate is set: the four string filters are absent or empty
(Python-falsy) and all 14 cutoff bounds are `None`. -/
def noPredicates (a : Args) : Prop :=
  strTruthy a.filter_college_code = false ∧
  strTruthy a.filter_college_name = false ∧
  strTruthy a.filter_branch_code = false ∧
  strTruthy a.filter_branch_name = false ∧
  a.min_oc_cutoff = none ∧ a.max_oc_cutoff = none ∧
  a.min_bc_cutoff = none ∧ a.max_bc_cutoff = none ∧
  a.min_bcm_cutoff = none ∧ a.max_bcm_cutoff = none ∧
  a.min_mbc_cutoff = none ∧ a.max_mbc_cutoff = none ∧
  a.min_sc_cutoff = none ∧ a.max_sc_cutoff = none ∧
  a.min_sca_cutoff = none ∧ a.max_sca_cutoff = none ∧
  a.min_st_cutoff = none ∧ a.max_st_cutoff = none

/-! ## Theorems -/

/-- A conditional filter stage yields a sublist. -/
theorem ite_filter_sublist {c : Prop} [Decidable c] (p : Record → Bool) (l : List Record) :
    List.Sublist (if c then l.filter p else l) l := by
  split
  · exact List.filter_sublist l
  · exact List.Sublist.refl l

/-- A min/max cutoff stage yields a sublist. -/
theorem cutoffFilterStep_sublist (key : Record → Option ℚ) (lo hi : Option ℚ)
    (t : List Record) : List.Sublist (cutoffFilterStep key lo hi t) t := by
  unfold cutoffFilterStep
  cases lo <;> cases hi <;> dsimp <;>
    first
      | exact List.Sublist.refl _
      | exact List.filter_sublist _
      | exact (List.filter_sublist _).trans (List.filter_sublist _)

/-- A cutoff stage with both bounds absent is the identity. -/
theorem cutoffFilterStep_none_none (key : Record → Option ℚ) (t : List Record) :
    cutoffFilterStep key none none t = t := rfl

/-- `apply_filters` always returns a sublist of its input. -/
theorem applyFilters_sublist (a : Args) (t : List Record) :
    List.Sublist (applyFilters a t) t := by
  simp only [applyFilters]
  split
  · exact List.Sublist.refl _
  · refine (cutoffFilterStep_sublist _ _ _ _).trans ?_
    refine (cutoffFilterStep_sublist _ _ _ _).trans ?_
    refine (cutoffFilterStep_sublist _ _ _ _).trans ?_
    refine (cutoffFilterStep_sublist _ _ _ _).trans ?_
    refine (cutoffFilterStep_sublist _ _ _ _).trans ?_
    refine (cutoffFilterStep_sublist _ _ _ _).trans ?_
    refine (cutoffFilterStep_sublist _ _ _ _).trans ?_
    refine (ite_filter_sublist _ _).trans ?_
    refine (ite_filter_sublist _ _).trans ?_
    refine (ite_filter_sublist _ _).trans ?_
    exact ite_filter_sublist _ _

/-- With no predicate set, `apply_filters` is the identity. -/
theorem applyFilters_noPredicates (a : Args) (t : List Record)
    (h : noPredicates a) : applyFilters a t = t := by
  obtain ⟨h1, h2, h3, h4, h5, h6, h7, h8, h9, h10, h11, h12, h13, h14, h15, h16, h17, h18⟩ := h
  simp only [applyFilters, h1, h2, h3, h4, h5, h6, h7, h8, h9, h10, h11, h12, h13, h14,
    h15, h16, h17, h18, cutoffFilterStep_none_none, Bool.false_eq_true, if_false]
  split <;> rfl

/-- Membership in a min/max cutoff stage with at least one bound set. -/
theorem mem_cutoffFilterStep (key : Record → Option ℚ) (lo hi : Option ℚ)
    (t : List Record) (r : Record) (hb : lo ≠ none ∨ hi ≠ none) :
    r ∈ cutoffFilterStep key lo hi t ↔
      r ∈ t ∧ ∃ v, key r = some v ∧ (∀ x ∈ lo, x ≤ v) ∧ (∀ x ∈ hi, v ≤ x) := by
  unfold cutoffFilterStep
  cases lo with
  | none =>
    cases hi with
    | none => simp at hb
    | some b =>
      dsimp only
      rw [List.mem_filter]
      cases hkr : key r <;> simp [hkr]
  | some a =>
    cases hi with
    | none =>
      dsimp only
      rw [List.mem_filter]
      cases hkr : key r <;> simp [hkr]
    | some b =>
      dsimp only
      rw [List.mem_filter, List.mem_filter]
      cases hkr : key r <;> simp [hkr, and_assoc]

/-- With only one community's bounds supplied, `apply_filters` reduces to
that community's cutoff stage (after the empty-frame guard). -/
theorem applyFilters_mkCutoffArgs (c : Comm) (lo hi : Option ℚ) (t : List Record) :
    applyFilters (mkCutoffArgs c lo hi) t =
      if t.isEmpty then t else cutoffFilterStep (cutoffField c) lo hi t := by
  cases c <;> rfl

/-- **C1**: for every normalized table and every community category, a
record passes a min and/or max cutoff filter on that category iff its
cutoff value for that category is non-null and lies within the inclusive
bounds; a null cutoff never matches any bound. -/
theorem C1_cutoff_filter_iff (c : Comm) (lo hi : Option ℚ) (t : List Record)
    (r : Record) (hb : lo ≠ none ∨ hi ≠ none) :
    r ∈ applyFilters (mkCutoffArgs c lo hi) t ↔
      r ∈ t ∧ ∃ v, cutoffField c r = some v ∧ (∀ x ∈ lo, x ≤ v) ∧ (∀ x ∈ hi, v ≤ x) := by
  rw [applyFilters_mkCutoffArgs]
  cases ht : t.isEmpty with
  | true =>
    rw [List.isEmpty_iff] at ht
    subst ht
    simp
  | false =>
    simp only [Bool.false_eq_true, if_false]
    exact mem_cutoffFilterStep (cutoffField c) lo hi t r hb

/-- Witness for `C1_cutoff_filter_iff`: the spec's
`filter(T, {min_oc=150, max_oc=180})` shape at concrete values. -/
theorem C1_cutoff_filter_iff_witness :
    ((some (150 : ℚ) ≠ none ∨ some (180 : ℚ) ≠ none) ∧
      (sampleRec "c" (some 150) ∈
          applyFilters (mkCutoffArgs Comm.oc (some 150) (some 180)) tThree ↔
        sampleRec "c" (some 150) ∈ tThree ∧
          ∃ v, cutoffField Comm.oc (sampleRec "c" (some 150)) = some v ∧
            (∀ x ∈ some (150 : ℚ), x ≤ v) ∧ (∀ x ∈ some (180 : ℚ), v ≤ x))) :=
  ⟨Or.inl (by decide),
    C1_cutoff_filter_iff Comm.oc (some 150) (some 180) tThree
      (sampleRec "c" (some 150)) (Or.inl (by decide))⟩

/-- **C4**: for every table `T` and predicate set `P`, `filter(T, P)` is a
sub-sequence of `T` (only records of `T`, in their original relative
order), and with no predicate set it returns `T` unchanged. -/
theorem C4_filter_subsequence (a : Args) (t : List Record) :
    List.Sublist (applyFilters a t) t ∧ (noPredicates a → applyFilters a t = t) :=
  ⟨applyFilters_sublist a t, applyFilters_noPredicates a t⟩

/-- Witness for `C4_filter_subsequence` with every predicate absent. -/
theorem C4_filter_subsequence_witness :
    List.Sublist (applyFilters noArgs tThree) tThree ∧ applyFilters noArgs tThree = tThree :=
  ⟨(C4_filter_subsequence noArgs tThree).1,
    (C4_filter_subsequence noArgs tThree).2
      ⟨rfl, rfl, rfl, rfl, rfl, rfl, rfl, rfl, rfl, rfl, rfl, rfl, rfl, rfl, rfl, rfl,
        rfl, rfl⟩⟩

/-- **C10**: the empty string as the value of any of the four string
filters acts exactly like the absent filter, while a cutoff bound of `0.0`
is still applied as a real constraint (only `None` disables a bound). -/
theorem C10_empty_string_vs_zero_bound :
    (∀ t, applyFilters { noArgs with filter_college_code := some "" } t =
      applyFilters noArgs t) ∧
    (∀ t, applyFilters { noArgs with filter_college_name := some "" } t =
      applyFilters noArgs t) ∧
    (∀ t, applyFilters { noArgs with filter_branch_code := some "" } t =
      applyFilters noArgs t) ∧
    (∀ t, applyFilters { noArgs with filter_branch_name := some "" } t =
      applyFilters noArgs t) ∧
    (∀ c t, applyFilters (mkCutoffArgs c (some 0) none) t =
      t.filter (fun r => match cutoffField c r with
        | some v => decide ((0 : ℚ) ≤ v)
        | none => false)) ∧
    applyFilters (mkCutoffArgs Comm.oc (some 0) none) [sampleRec "x" none] ≠
      applyFilters noArgs [sampleRec "x" none] := by
  refine ⟨fun t => rfl, fun t => rfl, fun t => rfl, fun t => rfl, ?_, by decide⟩
  intro c t
  rw [applyFilters_mkCutoffArgs]
  cases ht : t.isEmpty with
  | true =>
    rw [List.isEmpty_iff] at ht
    subst ht
    simp
  | false =>
    simp only [Bool.false_eq_true, if_false]
    cases c <;> rfl

/-- A non-NaN index points at a row with a present key. -/
theorem mem_nonNanIdx (key : Record → Option SVal) (t : List Record) (i : ℕ)
    (h : i ∈ nonNanIdx key t) : ∃ r, t.get? i = some r ∧ (key r).isSome = true := by
  unfold nonNanIdx at h
  rw [List.mem_filter] at h
  obtain ⟨-, h2⟩ := h
  cases hg : t.get? i with
  | none => rw [hg] at h2; simp at h2
  | some r => rw [hg] at h2; exact ⟨r, rfl, h2⟩

/-- A NaN index points at a row with a null key. -/
theorem mem_nanIdx (key : Record → Option SVal) (t : List Record) (i : ℕ)
    (h : i ∈ nanIdx key t) : ∃ r, t.get? i = some r ∧ key r = none := by
  unfold nanIdx at h
  rw [List.mem_filter] at h
  obtain ⟨-, h2⟩ := h
  cases hg : t.get? i with
  | none => rw [hg] at h2; simp at h2
  | some r =>
    rw [hg] at h2
    exact ⟨r, rfl, Option.isNone_iff_eq_none.mp h2⟩

/-- Every row taken through the NaN part of the indexer has a null key. -/
theorem nan_part_isNone (key : Record → Option SVal) (t : List Record) (r : Record)
    (h : r ∈ (nanIdx key t).filterMap (fun i => t.get? i)) : key r = none := by
  rw [List.mem_filterMap] at h
  obtain ⟨i, hi, hgi⟩ := h
  obtain ⟨r2, hr2, hs⟩ := mem_nanIdx key t i hi
  rw [hr2] at hgi
  cases hgi
  exact hs

/-- Every position produced by mapping sort tags through a list of non-NaN
row indices (in either orientation) points at a row with a present key. -/
theorem indexer_mem_isSome (key : Record → Option SVal) (t : List Record)
    (L M : List ℕ) (hM : ∀ j ∈ M, j ∈ nonNanIdx key t) (i : ℕ)
    (h : i ∈ L.filterMap (fun tg => M.get? tg)) :
    ∃ r, t.get? i = some r ∧ (key r).isSome = true := by
  rw [List.mem_filterMap] at h
  obtain ⟨tg, -, htg⟩ := h
  exact mem_nonNanIdx key t i (hM i (List.get?_mem htg))

/-- `sort_values` with `na_position='last'` puts the null-key rows after
every present-key row. -/
theorem sortByKey_nullsLast (key : Record → Option SVal) (t : List Record)
    (ascending : Bool) : nullsLastSplit key (sortByKey key t ascending true) := by
  unfold sortByKey nargsort
  dsimp only
  rw [if_pos rfl, List.filterMap_append]
  refine ⟨_, _, rfl, ?_, ?_⟩
  · intro r hr
    rw [List.mem_filterMap] at hr
    obtain ⟨i, hi, hgi⟩ := hr
    have hi2 : ∃ r2, t.get? i = some r2 ∧ (key r2).isSome = true := by
      cases ascending with
      | true =>
        exact indexer_mem_isSome key t
          (aquicksort (t.filterMap key).toArray).toList (nonNanIdx key t)
          (fun j hj => hj) i hi
      | false =>
        exact indexer_mem_isSome key t
          (aquicksort ((t.filterMap key).reverse).toArray).toList
          ((nonNanIdx key t).reverse)
          (fun j hj => List.mem_reverse.mp hj) i (List.mem_reverse.mp hi)
    obtain ⟨r2, hr2, hs⟩ := hi2
    rw [hr2] at hgi
    cases hgi
    exact hs
  · intro r hr
    exact nan_part_isNone key t r hr

/-- `sort_values` with `na_position='first'` puts the null-key rows before
every present-key row. -/
theorem sortByKey_nullsFirst (key : Record → Option SVal) (t : List Record)
    (ascending : Bool) : nullsFirstSplit key (sortByKey key t ascending false) := by
  unfold sortByKey nargsort
  dsimp only
  rw [if_neg (by simp), List.filterMap_append]
  refine ⟨_, _, rfl, ?_, ?_⟩
  · intro r hr
    exact nan_part_isNone key t r hr
  · intro r hr
    rw [List.mem_filterMap] at hr
    obtain ⟨i, hi, hgi⟩ := hr
    have hi2 : ∃ r2, t.get? i = some r2 ∧ (key r2).isSome = true := by
      cases ascending with
      | true =>
        exact indexer_mem_isSome key t
          (aquicksort (t.filterMap key).toArray).toList (nonNanIdx key t)
          (fun j hj => hj) i hi
      | false =>
        exact indexer_mem_isSome key t
          (aquicksort ((t.filterMap key).reverse).toArray).toList
          ((nonNanIdx key t).reverse)
          (fun j hj => List.mem_reverse.mp hj) i (List.mem_reverse.mp hi)
    obtain ⟨r2, hr2, hs⟩ := hi2
    rw [hr2] at hgi
    cases hgi
    exact hs

/-- Every canonical column name is a nonempty string. -/
theorem mapped_nonempty (c : String) (hc : c ∈ COLUMN_MAPPING.map Prod.snd) :
    c.isEmpty = false := by
  have hall : ∀ x ∈ COLUMN_MAPPING.map Prod.snd, x.isEmpty = false := by decide
  exact hall c hc

/-- A canonical column name resolves to itself (the exact-match branch). -/
theorem resolveSortColumn_exact (c : String) (hc : c ∈ COLUMN_MAPPING.map Prod.snd) :
    resolveSortColumn c = some c := by
  unfold resolveSortColumn
  rw [if_pos hc]

/-- `colKey` succeeds only on canonical column names. -/
theorem colKey_some_mem (c : String) (k : Record → Option SVal)
    (hk : colKey c = some k) : c ∈ COLUMN_MAPPING.map Prod.snd := by
  unfold colKey at hk
  rw [List.lookup_eq_some_iff] at hk
  obtain ⟨l1, l2, heq, -⟩ := hk
  have hmem : c ∈ colKeyList.map Prod.fst := by
    rw [heq]
    simp
  have hsame : colKeyList.map Prod.fst = COLUMN_MAPPING.map Prod.snd := rfl
  rw [hsame] at hmem
  exact hmem

/-- Every cutoff column is canonical. -/
theorem cutoff_mem_mapped (c : String) (hc : c ∈ CUTOFF_COLUMNS) :
    c ∈ COLUMN_MAPPING.map Prod.snd := by
  have hall : ∀ x ∈ CUTOFF_COLUMNS, x ∈ COLUMN_MAPPING.map Prod.snd := by decide
  exact hall c hc

/-- On a nonempty frame and a canonical sort column, `apply_sorting`
reduces to the pandas single-column sort with the computed direction and
`na_position`. -/
theorem applySorting_resolved (t : List Record) (c : String) (k : Record → Option SVal)
    (o : SortOrder) (hk : colKey c = some k) (hc : c ∈ COLUMN_MAPPING.map Prod.snd)
    (hne : t.isEmpty = false) :
    applySorting (sortArgs c o) t =
      sortByKey k t (o == SortOrder.asc)
        (if c ∈ CUTOFF_COLUMNS then o == SortOrder.asc else true) := by
  unfold sortArgs
  have hemp : c.isEmpty = false := mapped_nonempty c hc
  have htr : strTruthy (some c) = true := by
    show (!c.isEmpty) = true
    rw [hemp]
    rfl
  unfold applySorting
  dsimp only
  rw [hne, htr, show ((some c).getD "") = c from rfl, resolveSortColumn_exact c hc]
  dsimp only
  rw [hk]
  rfl

/-- **C2**: sorting on a cutoff column places null-cutoff records after all
non-null values in ascending order and before them in descending order;
sorting on any other (canonical) column places null keys last regardless of
direction. -/
theorem C2_sort_null_placement (t : List Record) (c : String)
    (k : Record → Option SVal) (hk : colKey c = some k) :
    (c ∈ CUTOFF_COLUMNS →
      nullsLastSplit k (applySorting (sortArgs c SortOrder.asc) t) ∧
      nullsFirstSplit k (applySorting (sortArgs c SortOrder.desc) t)) ∧
    (c ∉ CUTOFF_COLUMNS →
      nullsLastSplit k (applySorting (sortArgs c SortOrder.asc) t) ∧
      nullsLastSplit k (applySorting (sortArgs c SortOrder.desc) t)) := by
  have hc := colKey_some_mem c k hk
  constructor
  · intro hcut
    constructor
    · cases hne : t.isEmpty with
      | true =>
        rw [List.isEmpty_iff] at hne
        subst hne
        exact ⟨[], [], rfl, by simp, by simp⟩
      | false =>
        rw [applySorting_resolved t c k SortOrder.asc hk hc hne, if_pos hcut]
        exact sortByKey_nullsLast k t _
    · cases hne : t.isEmpty with
      | true =>
        rw [List.isEmpty_iff] at hne
        subst hne
        exact ⟨[], [], rfl, by simp, by simp⟩
      | false =>
        rw [applySorting_resolved t c k SortOrder.desc hk hc hne, if_pos hcut]
        exact sortByKey_nullsFirst k t _
  · intro hncut
    constructor
    · cases hne : t.isEmpty with
      | true =>
        rw [List.isEmpty_iff] at hne
        subst hne
        exact ⟨[], [], rfl, by simp, by simp⟩
      | false =>
        rw [applySorting_resolved t c k SortOrder.asc hk hc hne, if_neg hncut]
        exact sortByKey_nullsLast k t _
    · cases hne : t.isEmpty with
      | true =>
        rw [List.isEmpty_iff] at hne
        subst hne
        exact ⟨[], [], rfl, by simp, by simp⟩
      | false =>
        rw [applySorting_resolved t c k SortOrder.desc hk hc hne, if_neg hncut]
        exact sortByKey_nullsLast k t _

/-- Witness for `C2_sort_null_placement` on the spec's three-row example
sorted by `OC Cutoff`. -/
theorem C2_sort_null_placement_witness :
    colKey "OC Cutoff" = some ocKey ∧ "OC Cutoff" ∈ CUTOFF_COLUMNS ∧
    nullsLastSplit ocKey (applySorting (sortArgs "OC Cutoff" SortOrder.asc) tThree) ∧
    nullsFirstSplit ocKey (applySorting (sortArgs "OC Cutoff" SortOrder.desc) tThree) :=
  ⟨rfl, by decide,
    ((C2_sort_null_placement tThree "OC Cutoff" ocKey rfl).1 (by decide)).1,
    ((C2_sort_null_placement tThree "OC Cutoff" ocKey rfl).1 (by decide)).2⟩

/-- The key comparison is irreflexive. -/
theorem ltSV_irrefl (x : SVal) : ltSV x x = false := by
  cases x with
  | str s => simp [ltSV]
  | num q => simp [ltSV]

/-- On a constant value array the tag values read through `Array.range n`
are all that constant (out-of-range reads hit the defaults, which for a
nonempty constant array give the same constant). -/
theorem valAt_replicate_range (n : ℕ) (sv : SVal) (hn : 0 < n) (i : ℕ) :
    valAt ((List.replicate n sv).toArray) (Array.range n) i = sv := by
  unfold valAt
  have htag : ∀ j : ℕ, (Array.range n).getD j 0 < n := by
    intro j
    unfold Array.getD
    split
    · rw [Array.get_eq_getElem, Array.getElem_range]
      rw [Array.size_range] at *
      assumption
    · exact hn
  have hval : ∀ j : ℕ, j < n → ((List.replicate n sv).toArray).getD j (SVal.num 0) = sv := by
    intro j hj
    unfold Array.getD
    split
    · rw [Array.get_eq_getElem]
      simp
    · simp_all
  exact hval _ (htag i)

/-- The insertion bubble stops immediately when the comparison fails. -/
theorem insBubble_of_not_lt (v : Array SVal) (pl : ℕ) (fuel : ℕ) (tags : Array ℕ)
    (pj : ℕ) (h : ltSV (valAt v tags pj) (valAt v tags (pj - 1)) = false) :
    insBubble v pl fuel tags pj = tags := by
  cases fuel with
  | zero => rfl
  | succ f =>
    unfold insBubble
    rw [if_neg]
    intro hc
    rw [h] at hc
    exact Bool.false_ne_true hc.2

/-- The insertion sort is the identity when no two reads ever compare
strictly. -/
theorem insRangeGo_of_not_lt (v : Array SVal) (pl pr : ℕ) (tags : Array ℕ)
    (h : ∀ i j : ℕ, ltSV (valAt v tags i) (valAt v tags j) = false) :
    ∀ (fuel pi : ℕ), insRangeGo v pl pr fuel tags pi = tags := by
  intro fuel
  induction fuel with
  | zero => intro pi; rfl
  | succ f ih =>
    intro pi
    unfold insRangeGo
    split
    · rw [insBubble_of_not_lt v pl pi tags pi (h _ _)]
      exact ih (pi + 1)
    · rfl

/-- The partition loop exits at once on a small segment. -/
theorem partitionLoop_small (v : Array SVal) (fuel : ℕ) (tags : Array ℕ)
    (pl pr : ℕ) (stack : List (ℕ × ℕ)) (h : pr - pl ≤ 15) :
    partitionLoop v fuel tags pl pr stack = (tags, pl, pr, stack) := by
  cases fuel with
  | zero => rfl
  | succ f =>
    unfold partitionLoop
    rw [if_neg]
    omega

/-- numpy argsort of at most 16 equal keys is the identity permutation (the
insertion-sort path with a comparison that never fires). -/
theorem aquicksort_replicate_le16 (n : ℕ) (sv : SVal) (hn : n ≤ 16) :
    aquicksort ((List.replicate n sv).toArray) = Array.range n := by
  have hsz : ((List.replicate n sv).toArray).size = n := by simp
  have hval : ∀ i j : ℕ,
      ltSV (valAt ((List.replicate n sv).toArray) (Array.range n) i)
        (valAt ((List.replicate n sv).toArray) (Array.range n) j) = false := by
    intro i j
    cases Nat.eq_zero_or_pos n with
    | inl h0 =>
      subst h0
      exact ltSV_irrefl _
    | inr hpos =>
      rw [valAt_replicate_range n sv hpos i, valAt_replicate_range n sv hpos j]
      exact ltSV_irrefl sv
  unfold aquicksort
  rw [hsz]
  dsimp only
  rw [show 2 * n + 2 = (2 * n + 1) + 1 from rfl]
  unfold aqsMain
  rw [if_neg (by
    have : (0 : ℤ) ≤ depthLimit n := by
      unfold depthLimit
      positivity
    omega)]
  rw [partitionLoop_small _ _ _ _ _ _ (by omega)]
  dsimp only
  unfold insRange
  rw [insRangeGo_of_not_lt _ _ _ _ hval]

/-- Reads from the all-zero value array give the zero value whatever the
tag array holds: in-range reads hit a replicated zero and out-of-range
reads hit the zero defaults. -/
theorem valAt_zeroVals (T : Array ℕ) (i : ℕ) : valAt zeroVals T i = SVal.num 0 := by
  unfold valAt zeroVals
  generalize T.getD i 0 = j
  unfold Array.getD
  split
  · rw [Array.get_eq_getElem]
    simp only [List.getElem_toArray, List.getElem_replicate]
  · rfl

/-- No read of the all-zero array is below the zero pivot. -/
theorem ltSV_read_pivot (T : Array ℕ) (i : ℕ) :
    ltSV (valAt zeroVals T i) (SVal.num 0) = false := by
  rw [valAt_zeroVals]
  exact ltSV_irrefl _

/-- The zero pivot is below no read of the all-zero array. -/
theorem ltSV_pivot_read (T : Array ℕ) (i : ℕ) :
    ltSV (SVal.num 0) (valAt zeroVals T i) = false := by
  rw [valAt_zeroVals]
  exact ltSV_irrefl _

/-- The upward partition scan advances exactly one position on equal
keys. -/
theorem scanUp_zero (T : Array ℕ) (fuel pi : ℕ) (hf : fuel ≠ 0) :
    scanUp zeroVals T (SVal.num 0) fuel pi = pi + 1 := by
  cases fuel with
  | zero => exact absurd rfl hf
  | succ f =>
    unfold scanUp
    rw [ltSV_read_pivot T (pi + 1), if_neg Bool.false_ne_true]

/-- The downward partition scan retreats exactly one position on equal
keys. -/
theorem scanDown_zero (T : Array ℕ) (fuel pj : ℕ) (hf : fuel ≠ 0) :
    scanDown zeroVals T (SVal.num 0) fuel pj = pj - 1 := by
  cases fuel with
  | zero => exact absurd rfl hf
  | succ f =>
    unfold scanDown
    rw [ltSV_pivot_read T (pj - 1), if_neg Bool.false_ne_true]

/-- One exchange step of the Hoare scan on equal keys: the two scans move
one position each and the elements there are swapped. -/
theorem hoareLoop_zero_step (f : ℕ) (T : Array ℕ) (pi pj : ℕ) (hsz : T.size ≠ 0)
    (hcross : ¬ pi + 1 ≥ pj - 1) :
    hoareLoop zeroVals (SVal.num 0) (f + 1) T pi pj
      = hoareLoop zeroVals (SVal.num 0) f (swapN T (pi + 1) (pj - 1)) (pi + 1) (pj - 1) := by
  rw [hoareLoop.eq_2]
  rw [scanUp_zero T T.size pi hsz, scanDown_zero T T.size pj hsz, if_neg hcross]

/-- The Hoare scan stops as soon as the two moved positions cross. -/
theorem hoareLoop_zero_stop (f : ℕ) (T : Array ℕ) (pi pj : ℕ) (hsz : T.size ≠ 0)
    (hcross : pi + 1 ≥ pj - 1) :
    hoareLoop zeroVals (SVal.num 0) (f + 1) T pi pj = (T, pi + 1) := by
  unfold hoareLoop
  dsimp only
  rw [scanUp_zero T T.size pi hsz, scanDown_zero T T.size pj hsz, if_pos hcross]

/-- Insertion sort never moves anything on the all-zero value array. -/
theorem insRange_zeroVals (T : Array ℕ) (pl pr : ℕ) : insRange zeroVals T pl pr = T := by
  unfold insRange
  exact insRangeGo_of_not_lt zeroVals pl pr T
    (fun i j => by rw [valAt_zeroVals, valAt_zeroVals]; exact ltSV_irrefl _) _ _

/-- One round of the partition loop on a large segment of equal keys,
taking the larger-right branch: the median-of-three comparisons all fail,
the pivot is parked at `pr - 1`, the Hoare scan runs, and the left side is
deferred. -/
theorem partitionLoop_zero_step (f : ℕ) (T : Array ℕ) (pl pr : ℕ)
    (stack : List (ℕ × ℕ)) (hbig : pr - pl > 15) (T2 : Array ℕ) (pi : ℕ)
    (hres : hoareLoop zeroVals (SVal.num 0)
        (swapN T (pl + (pr - pl) / 2) (pr - 1)).size
        (swapN T (pl + (pr - pl) / 2) (pr - 1)) pl (pr - 1) = (T2, pi))
    (hside : ¬ pi - pl < pr - pi) :
    partitionLoop zeroVals (f + 1) T pl pr stack
      = partitionLoop zeroVals f (swapN T2 pi (pr - 1)) (pi + 1) pr
          ((pl, pi - 1) :: stack) := by
  rw [partitionLoop.eq_2]
  rw [if_pos hbig]
  dsimp only
  simp only [valAt_zeroVals, ltSV_irrefl, if_neg Bool.false_ne_true]
  rw [hres]
  dsimp only
  rw [if_neg hside]

/-- One round of the outer introsort loop that defers a segment: partition,
insertion-sort the remaining small segment, pop the deferred one. -/
theorem aqsMain_step_next (v : Array SVal) (f : ℕ) (tags : Array ℕ) (pl pr : ℕ)
    (stack : List (ℕ × ℕ)) (depth : ℤ) (hd : ¬ depth < 0) (T2 : Array ℕ)
    (a b pl2 pr2 : ℕ) (rest : List (ℕ × ℕ))
    (hres : partitionLoop v (pr + 1 - pl) tags pl pr stack
        = (T2, a, b, (pl2, pr2) :: rest)) :
    aqsMain v (f + 1) tags pl pr stack depth
      = aqsMain v f (insRange v T2 a b) pl2 pr2 rest (depth - 1) := by
  rw [aqsMain.eq_2]
  rw [if_neg hd]
  dsimp only
  rw [hres]

/-- The final round of the outer introsort loop: partition, insertion-sort,
empty deferred stack. -/
theorem aqsMain_step_done (v : Array SVal) (f : ℕ) (tags : Array ℕ) (pl pr : ℕ)
    (stack : List (ℕ × ℕ)) (depth : ℤ) (hd : ¬ depth < 0) (T2 : Array ℕ)
    (a b : ℕ)
    (hres : partitionLoop v (pr + 1 - pl) tags pl pr stack = (T2, a, b, [])) :
    aqsMain v (f + 1) tags pl pr stack depth = insRange v T2 a b := by
  unfold aqsMain
  rw [if_neg hd]
  dsimp only
  rw [hres]

/-- The Hoare scan of the seventeen-key partition, stepped through its
seven exchanges and its stop. -/
theorem hoare17 : hoareLoop zeroVals (SVal.num 0) 17 qTagP 0 15 = (qTagH7, 8) := by
  rw [show (17 : ℕ) = 16 + 1 from rfl,
    hoareLoop_zero_step 16 qTagP 0 15 (by decide) (by decide)]
  rw [show swapN qTagP (0 + 1) (15 - 1) = qTagH1 from by decide,
    show (0 : ℕ) + 1 = 1 from rfl, show (15 : ℕ) - 1 = 14 from rfl]
  rw [show (16 : ℕ) = 15 + 1 from rfl,
    hoareLoop_zero_step 15 qTagH1 1 14 (by decide) (by decide)]
  rw [show swapN qTagH1 (1 + 1) (14 - 1) = qTagH2 from by decide,
    show (1 : ℕ) + 1 = 2 from rfl, show (14 : ℕ) - 1 = 13 from rfl]
  rw [show (15 : ℕ) = 14 + 1 from rfl,
    hoareLoop_zero_step 14 qTagH2 2 13 (by decide) (by decide)]
  rw [show swapN qTagH2 (2 + 1) (13 - 1) = qTagH3 from by decide,
    show (2 : ℕ) + 1 = 3 from rfl, show (13 : ℕ) - 1 = 12 from rfl]
  rw [show (14 : ℕ) = 13 + 1 from rfl,
    hoareLoop_zero_step 13 qTagH3 3 12 (by decide) (by decide)]
  rw [show swapN qTagH3 (3 + 1) (12 - 1) = qTagH4 from by decide,
    show (3 : ℕ) + 1 = 4 from rfl, show (12 : ℕ) - 1 = 11 from rfl]
  rw [show (13 : ℕ) = 12 + 1 from rfl,
    hoareLoop_zero_step 12 qTagH4 4 11 (by decide) (by decide)]
  rw [show swapN qTagH4 (4 + 1) (11 - 1) = qTagH5 from by decide,
    show (4 : ℕ) + 1 = 5 from rfl, show (11 : ℕ) - 1 = 10 from rfl]
  rw [show (12 : ℕ) = 11 + 1 from rfl,
    hoareLoop_zero_step 11 qTagH5 5 10 (by decide) (by decide)]
  rw [show swapN qTagH5 (5 + 1) (10 - 1) = qTagH6 from by decide,
    show (5 : ℕ) + 1 = 6 from rfl, show (10 : ℕ) - 1 = 9 from rfl]
  rw [show (11 : ℕ) = 10 + 1 from rfl,
    hoareLoop_zero_step 10 qTagH6 6 9 (by decide) (by decide)]
  rw [show swapN qTagH6 (6 + 1) (9 - 1) = qTagH7 from by decide,
    show (6 : ℕ) + 1 = 7 from rfl, show (9 : ℕ) - 1 = 8 from rfl]
  rw [show (10 : ℕ) = 9 + 1 from rfl,
    hoareLoop_zero_stop 9 qTagH7 7 8 (by decide) (by decide)]

/-- The partition of seventeen equal keys: one Hoare round, the pivot lands
at position 8, the left half is deferred and the right half is the
remaining small segment. -/
theorem partition17 :
    partitionLoop zeroVals 17 qTag0 0 16 [] = (qTagF, 9, 16, [(0, 7)]) := by
  have hres : hoareLoop zeroVals (SVal.num 0)
      (swapN qTag0 (0 + (16 - 0) / 2) (16 - 1)).size
      (swapN qTag0 (0 + (16 - 0) / 2) (16 - 1)) 0 (16 - 1) = (qTagH7, 8) := by
    rw [show swapN qTag0 (0 + (16 - 0) / 2) (16 - 1) = qTagP from by decide]
    rw [show (qTagP : Array ℕ).size = 17 from rfl]
    rw [show (16 : ℕ) - 1 = 15 from rfl]
    exact hoare17
  rw [show (17 : ℕ) = 16 + 1 from rfl,
    partitionLoop_zero_step 16 qTag0 0 16 [] (by decide) qTagH7 8 hres (by decide)]
  rw [show swapN qTagH7 8 (16 - 1) = qTagF from by decide,
    show (8 : ℕ) + 1 = 9 from rfl, show (8 : ℕ) - 1 = 7 from rfl]
  rw [partitionLoop_small zeroVals 16 qTagF 9 16 ((0, 7) :: []) (by decide)]

/-- numpy argsort of seventeen equal keys is NOT the identity: the
quicksort partition permutes the tag array. -/
theorem aquicksort17 : aquicksort zeroVals = qTagF := by
  unfold aquicksort
  dsimp only
  rw [show (zeroVals : Array SVal).size = 17 from rfl]
  rw [show (2 * 17 + 2 : ℕ) = 35 + 1 from rfl]
  rw [show Array.range 17 = qTag0 from by decide]
  rw [show (17 : ℕ) - 1 = 16 from rfl]
  rw [show depthLimit 17 = 8 from by decide]
  have hres1 : partitionLoop zeroVals (16 + 1 - 0) qTag0 0 16 []
      = (qTagF, 9, 16, (0, 7) :: []) := by
    rw [show (16 + 1 - 0 : ℕ) = 17 from rfl]
    exact partition17
  rw [aqsMain_step_next zeroVals 35 qTag0 0 16 [] 8 (by decide) qTagF 9 16 0 7 [] hres1]
  rw [insRange_zeroVals]
  rw [show (8 : ℤ) - 1 = 7 from by decide]
  rw [show (35 : ℕ) = 34 + 1 from rfl]
  have hres2 : partitionLoop zeroVals (7 + 1 - 0) qTagF 0 7 [] = (qTagF, 0, 7, []) :=
    partitionLoop_small zeroVals (7 + 1 - 0) qTagF 0 7 [] (by decide)
  rw [aqsMain_step_done zeroVals 34 qTagF 0 7 [] 7 (by decide) qTagF 0 7 hres2]
  rw [insRange_zeroVals]

/-- The ascending nargsort of the seventeen-row tie table is the quicksort
permutation, not the identity. -/
theorem nargsort17 :
    nargsort ocKey tie17 true true
      = [0, 14, 13, 12, 11, 10, 9, 15, 8, 6, 5, 4, 3, 2, 1, 7, 16] := by
  unfold nargsort
  dsimp only
  rw [if_pos rfl, if_pos rfl, if_pos rfl, if_pos rfl]
  rw [show tie17.filterMap ocKey = List.replicate 17 (SVal.num 0) from by decide]
  rw [show (List.replicate 17 (SVal.num 0)).toArray = zeroVals from rfl]
  rw [aquicksort17]
  rw [show nonNanIdx ocKey tie17 = List.range 17 from by decide]
  rw [show nanIdx ocKey tie17 = ([] : List ℕ) from by decide]
  decide

/-- With every key present, the non-NaN index list is the whole range. -/
theorem nonNanIdx_all_some (key : Record → Option SVal) (t : List Record)
    (h : ∀ r ∈ t, (key r).isSome = true) :
    nonNanIdx key t = List.range t.length := by
  unfold nonNanIdx
  rw [List.filter_eq_self]
  intro i hi
  rw [List.mem_range] at hi
  rw [List.get?_eq_get hi]
  exact h _ (List.get_mem t i hi)

/-- With every key present, the NaN index list is empty. -/
theorem nanIdx_all_some (key : Record → Option SVal) (t : List Record)
    (h : ∀ r ∈ t, (key r).isSome = true) : nanIdx key t = [] := by
  unfold nanIdx
  rw [List.filter_eq_nil_iff]
  intro i hi
  rw [List.mem_range] at hi
  rw [List.get?_eq_get hi]
  show ¬((key (t.get ⟨i, hi⟩)).isNone = true)
  have h2 := h _ (List.get_mem t i hi)
  cases hk : key (t.get ⟨i, hi⟩) with
  | none =>
    rw [hk] at h2
    simp at h2
  | some v => simp

/-- A constant key extracts to a replicated value list. -/
theorem filterMap_const_key (key : Record → Option SVal) (sv : SVal) :
    ∀ (t : List Record), (∀ r ∈ t, key r = some sv) →
      t.filterMap key = List.replicate t.length sv := by
  intro t
  induction t with
  | nil => intro _; rfl
  | cons x xs ih =>
    intro h
    rw [List.filterMap_cons, h x (List.mem_cons_self x xs)]
    rw [List.length_cons, List.replicate_succ]
    rw [ih (fun r hr => h r (List.mem_cons_of_mem x hr))]

/-- Taking every position of a list in order reproduces the list. -/
theorem filterMap_get_range {α : Type} : ∀ (l : List α),
    (List.range l.length).filterMap (fun i => l.get? i) = l := by
  intro l
  induction l with
  | nil => rfl
  | cons x xs ih =>
    rw [List.length_cons, List.range_succ_eq_map, List.filterMap_cons]
    dsimp only [List.get?]
    rw [List.filterMap_map]
    have hcomp : ((fun i => (x :: xs).get? i) ∘ Nat.succ) = fun i => xs.get? i := rfl
    rw [hcomp, ih]

/-- Variant of `filterMap_get_range` in `getElem?` form. -/
theorem filterMap_getElem_range {α : Type} (l : List α) :
    (List.range l.length).filterMap (fun i => l[i]?) = l := by
  have h := filterMap_get_range l
  simpa using h

/-- Taking every position of a list in reverse order reproduces its
reverse. -/
theorem filterMap_get_range_reverse {α : Type} (l : List α) :
    (List.range l.length).reverse.filterMap (fun i => l.get? i) = l.reverse := by
  rw [List.filterMap_reverse (fun i => l.get? i) (List.range l.length)]
  rw [filterMap_get_range l]

/-- The pandas single-key sort of a constant-key table of at most 16 rows
returns the table unchanged in both directions: the non-NaN segment fits
numpy's stable insertion-sort path, and on descending sorts the double
reversal (values and indices before the argsort, indexer after it) cancels
out over the identity argsort. -/
theorem sortByKey_const (key : Record → Option SVal) (t : List Record) (sv : SVal)
    (hconst : ∀ r ∈ t, key r = some sv) (hlen : t.length ≤ 16) (naLast : Bool) :
    sortByKey key t true naLast = t ∧ sortByKey key t false naLast = t := by
  have hsome : ∀ r ∈ t, (key r).isSome = true := by
    intro r hr
    rw [hconst r hr]
    rfl
  have hvals : t.filterMap key = List.replicate t.length sv :=
    filterMap_const_key key sv t hconst
  have hnn := nonNanIdx_all_some key t hsome
  have hna := nanIdx_all_some key t hsome
  constructor
  · unfold sortByKey nargsort
    dsimp only
    have hidx : ((aquicksort (if (true : Bool) then t.filterMap key
        else (t.filterMap key).reverse).toArray).toList.filterMap
        fun tg => (if (true : Bool) then nonNanIdx key t
        else (nonNanIdx key t).reverse).get? tg) = List.range t.length := by
      rw [if_pos rfl, if_pos rfl, hvals,
        aquicksort_replicate_le16 t.length sv hlen, Array.toList_range, hnn]
      have h2 := filterMap_get_range (List.range t.length)
      rw [List.length_range] at h2
      exact h2
    rw [hidx, if_pos rfl, hna]
    cases naLast with
    | true => simp [filterMap_get_range, filterMap_getElem_range]
    | false => simp [filterMap_get_range, filterMap_getElem_range]
  · unfold sortByKey nargsort
    dsimp only
    have hidx2 : ((aquicksort (if (false : Bool) then t.filterMap key
        else (t.filterMap key).reverse).toArray).toList.filterMap
        fun tg => (if (false : Bool) then nonNanIdx key t
        else (nonNanIdx key t).reverse).get? tg)
        = (List.range t.length).reverse := by
      rw [if_neg Bool.false_ne_true, if_neg Bool.false_ne_true, hvals,
        List.reverse_replicate, aquicksort_replicate_le16 t.length sv hlen,
        Array.toList_range, hnn]
      have h2 := filterMap_get_range ((List.range t.length).reverse)
      rw [List.length_reverse, List.length_range] at h2
      exact h2
    rw [hidx2, if_neg Bool.false_ne_true, List.reverse_reverse, hna]
    cases naLast with
    | true => simp [filterMap_get_range, filterMap_getElem_range]
    | false => simp [filterMap_get_range, filterMap_getElem_range]

/-- **C3 (amended)**: on a table of at most 16 rows whose sort-key value is
one and the same non-null value on every row, both ascending and descending
sort return the table unchanged: the tie group fits numpy's stable
insertion-sort path, and pandas' double reversal on descending sorts keeps
tie order intact; tables of more than 16 rows go through numpy's default
quicksort partition, which reorders ties. -/
theorem C3_constant_key_small_table (t : List Record) (c : String)
    (k : Record → Option SVal) (sv : SVal) (hk : colKey c = some k)
    (hconst : ∀ r ∈ t, k r = some sv) (hlen : t.length ≤ 16) :
    applySorting (sortArgs c SortOrder.asc) t = t ∧
    applySorting (sortArgs c SortOrder.desc) t = t := by
  have hc := colKey_some_mem c k hk
  cases hne : t.isEmpty with
  | true =>
    rw [List.isEmpty_iff] at hne
    subst hne
    exact ⟨rfl, rfl⟩
  | false =>
    constructor
    · rw [applySorting_resolved t c k SortOrder.asc hk hc hne]
      exact (sortByKey_const k t sv hconst hlen _).1
    · rw [applySorting_resolved t c k SortOrder.desc hk hc hne]
      exact (sortByKey_const k t sv hconst hlen _).2

/-- Witness for `C3_constant_key_small_table` on a two-row constant-key
table. -/
theorem C3_constant_key_small_table_witness :
    colKey "OC Cutoff" = some ocKey ∧
    (∀ r ∈ tiePair, ocKey r = some (SVal.num 5)) ∧ tiePair.length ≤ 16 ∧
    (applySorting (sortArgs "OC Cutoff" SortOrder.asc) tiePair = tiePair ∧
     applySorting (sortArgs "OC Cutoff" SortOrder.desc) tiePair = tiePair) :=
  ⟨rfl, by decide, by decide,
    C3_constant_key_small_table tiePair "OC Cutoff" ocKey (SVal.num 5) rfl
      (by decide) (by decide)⟩

/-- **C3 (counterexample)**: an ascending sort of seventeen rows sharing one
cutoff value does not return the table unchanged - one row past the
insertion-sort threshold, numpy's default quicksort partition permutes the
equal keys - so the sort is not stable as claimed. -/
theorem C3_stability_counterexample :
    applySorting (sortArgs "OC Cutoff" SortOrder.asc) tie17 ≠ tie17 := by
  rw [applySorting_resolved tie17 "OC Cutoff" ocKey SortOrder.asc rfl (by decide) rfl]
  rw [show (SortOrder.asc == SortOrder.asc) = true from rfl]
  rw [show (if "OC Cutoff" ∈ CUTOFF_COLUMNS then true else true) = true from by decide]
  unfold sortByKey
  rw [nargsort17]
  decide

/-- A character list starts with itself. -/
theorem startsWithList_refl : ∀ (l : List Char), startsWithList l l = true := by
  intro l
  induction l with
  | nil => rfl
  | cons c cs ih =>
    unfold startsWithList
    simp [ih]

/-- Every string contains itself (so the first-substring-match scan always
hits an entry whose raw key equals the request). -/
theorem strContainsCI_refl (s : String) : strContainsCI s s = true := by
  unfold strContainsCI
  cases hl : s.toList.map Char.toLower with
  | nil => rfl
  | cons c cs =>
    unfold containsSubList
    rw [startsWithList_refl]
    rfl

/-- If the substring scan finds nothing, the raw-key fallback cannot fire
either: a raw key equal to the request would have matched the scan. -/
theorem lookup_none_of_find_none (s : String)
    (h : COLUMN_MAPPING.find? (fun kv =>
      strContainsCI kv.2 s || strContainsCI kv.1 s) = none) :
    COLUMN_MAPPING.lookup s = none := by
  rw [List.lookup_eq_none_iff]
  intro p hp
  by_contra hc
  simp only [bne_iff_ne, ne_eq, not_not] at hc
  have hnp := List.find?_eq_none.mp h p hp
  rw [hc] at hnp
  rw [strContainsCI_refl p.1] at hnp
  simp at hnp

/-- **C6**: sort-column resolution tries an exact canonical-name match
first; otherwise it returns the first `COLUMN_MAPPING` entry (in declared
order) whose canonical name or raw field code contains the request
case-insensitively; when nothing matches, the table is returned unsorted
and the run continues. -/
theorem C6_sort_column_resolution (s : String) (o : SortOrder) (t : List Record) :
    (s ∈ COLUMN_MAPPING.map Prod.snd → resolveSortColumn s = some s) ∧
    (s ∉ COLUMN_MAPPING.map Prod.snd →
      resolveSortColumn s =
        (COLUMN_MAPPING.find? (fun kv =>
          strContainsCI kv.2 s || strContainsCI kv.1 s)).map Prod.snd) ∧
    (resolveSortColumn s = none → applySorting (sortArgs s o) t = t) := by
  refine ⟨resolveSortColumn_exact s, ?_, ?_⟩
  · intro hns
    unfold resolveSortColumn
    rw [if_neg hns]
    cases hf : COLUMN_MAPPING.find? (fun kv =>
        strContainsCI kv.2 s || strContainsCI kv.1 s) with
    | some kv => rfl
    | none =>
      rw [lookup_none_of_find_none s hf]
      rfl
  · intro hnone
    unfold applySorting sortArgs
    dsimp only
    split
    · rfl
    · rw [show ((some s).getD "") = s from rfl, hnone]

/-- Witness for `C6_sort_column_resolution` at an unresolvable name. -/
theorem C6_sort_column_resolution_witness :
    ("zzz" ∉ COLUMN_MAPPING.map Prod.snd) ∧
    (resolveSortColumn "zzz" =
      (COLUMN_MAPPING.find? (fun kv =>
        strContainsCI kv.2 "zzz" || strContainsCI kv.1 "zzz")).map Prod.snd) ∧
    (resolveSortColumn "zzz" = none) ∧
    applySorting (sortArgs "zzz" SortOrder.asc) tThree = tThree :=
  ⟨by decide,
    (C6_sort_column_resolution "zzz" SortOrder.asc tThree).2.1 (by decide),
    by decide,
    (C6_sort_column_resolution "zzz" SortOrder.asc tThree).2.2 (by decide)⟩

/-- **C9**: with the PDF renderer absent, a requested PDF export is skipped
with a warning while the run continues with the same exit code, and no
other operation changes at all. -/
theorem C9_pdf_renderer_optional (a : Args) (fetch : String → FetchResult) :
    (runMain a fetch false).exitCode = (runMain a fetch true).exitCode ∧
    (runMain a fetch false).events = (runMain a fetch true).events.map pdfAdjust := by
  constructor
  · unfold runMain
    dsimp only
    cases hy : List.lookup a.year YEAR_TO_API_CODE with
    | none => rfl
    | some code =>
      dsimp only
      cases hs : a.list_sortable_columns with
      | true => rfl
      | false =>
        cases hact : (!(a.list_colleges || a.list_branches) && !strTruthy a.output_file) with
        | true => rfl
        | false =>
          cases hf : fetch code with
          | failed => rfl
          | ok raw =>
            cases raw with
            | nil => rfl
            | cons r rs =>
              dsimp only
              cases hpd : processData (r :: rs) with
              | error e => rfl
              | ok df =>
                dsimp only
                cases he : df.rows.isEmpty with
                | true => rfl
                | false =>
                  cases hc : a.list_colleges with
                  | true => rfl
                  | false =>
                    cases hb : a.list_branches with
                    | true => rfl
                    | false =>
                      cases hfe : (applyFilters a (List.map recordOfRow df.rows)).isEmpty with
                      | true => rfl
                      | false =>
                        cases ho : strTruthy a.output_file with
                        | false => rfl
                        | true =>
                          cases hfmt : a.format with
                          | excel => rfl
                          | csv => rfl
                          | pdf => rfl
  · unfold runMain
    dsimp only
    cases hy : List.lookup a.year YEAR_TO_API_CODE with
    | none => rfl
    | some code =>
      dsimp only
      cases hs : a.list_sortable_columns with
      | true => rfl
      | false =>
        cases hact : (!(a.list_colleges || a.list_branches) && !strTruthy a.output_file) with
        | true => rfl
        | false =>
          cases hf : fetch code with
          | failed => rfl
          | ok raw =>
            cases raw with
            | nil => rfl
            | cons r rs =>
              dsimp only
              cases hpd : processData (r :: rs) with
              | error e => rfl
              | ok df =>
                dsimp only
                cases he : df.rows.isEmpty with
                | true => rfl
                | false =>
                  cases hc : a.list_colleges with
                  | true => rfl
                  | false =>
                    cases hb : a.list_branches with
                    | true => rfl
                    | false =>
                      cases hfe : (applyFilters a (List.map recordOfRow df.rows)).isEmpty with
                      | true => rfl
                      | false =>
                        cases ho : strTruthy a.output_file with
                        | false => rfl
                        | true =>
                          cases hfmt : a.format with
                          | excel => rfl
                          | csv => rfl
                          | pdf => rfl

/-- **C7 (amended)**: the process exits 0 on every success path (list
actions, zero fetched rows, zero matching rows, exports) and 1 on fetch
failure; an unsupported year, however, is rejected by the argument parser's
`choices` check with exit code 2 before any fetch - the in-script exit-1
branch for an invalid year is unreachable from the CLI. -/
theorem C7_exit_codes (a : Args) (fetch : String → FetchResult) (p : Bool) :
    (YEAR_TO_API_CODE.lookup a.year = none →
      runMain a fetch p = RunOutcome.mk 2 []) ∧
    ((YEAR_TO_API_CODE.lookup a.year).isSome = true → a.list_sortable_columns = true →
      runMain a fetch p = RunOutcome.mk 0 [RunEvent.listedSortable]) ∧
    (∀ code, YEAR_TO_API_CODE.lookup a.year = some code → passesArgChecks a →
      (fetch code = FetchResult.failed → (runMain a fetch p).exitCode = 1) ∧
      (fetch code = FetchResult.ok [] → (runMain a fetch p).exitCode = 0) ∧
      (∀ raw df, fetch code = FetchResult.ok raw → processData raw = Except.ok df →
        (runMain a fetch p).exitCode = 0)) := by
  refine ⟨?_, ?_, ?_⟩
  · intro h
    unfold runMain
    rw [h]
    rfl
  · intro h1 h2
    cases hlk : YEAR_TO_API_CODE.lookup a.year with
    | none =>
      rw [hlk] at h1
      simp at h1
    | some code =>
      unfold runMain
      rw [hlk, h2]
      rfl
  · intro code hlk hpass
    obtain ⟨hsort, hact⟩ := hpass
    have hcond : (!(a.list_colleges || a.list_branches) && !strTruthy a.output_file) = false := by
      rcases hact with h | h | h <;> rw [h] <;> simp
    refine ⟨?_, ?_, ?_⟩
    · intro hf
      unfold runMain
      rw [hlk, hsort, hcond]
      dsimp only
      rw [hf]
      rfl
    · intro hf
      unfold runMain
      rw [hlk, hsort, hcond]
      dsimp only
      rw [hf]
      rfl
    · intro raw df hf hok
      unfold runMain
      rw [hlk, hsort, hcond]
      dsimp only
      rw [hf]
      cases raw with
      | nil => rfl
      | cons r rs =>
        dsimp only
        rw [hok]
        dsimp only
        cases he : df.rows.isEmpty with
        | true => rfl
        | false =>
          cases hc : a.list_colleges with
          | true => rfl
          | false =>
            cases hb : a.list_branches with
            | true => rfl
            | false =>
              cases hfe : (applyFilters a (List.map recordOfRow df.rows)).isEmpty with
              | true => rfl
              | false =>
                cases ho : strTruthy a.output_file with
                | false => rfl
                | true =>
                  cases hfmt : a.format with
                  | excel => rfl
                  | csv => rfl
                  | pdf => cases p <;> rfl

/-- **C7 (counterexample)**: requesting the unsupported year 2019 exits
with argparse's code 2, not with code 1 as the claim states. -/
theorem C7_invalid_year_counterexample :
    (runMain args2019 (fetchConst FetchResult.failed) true).exitCode ≠ 1 := by
  decide

/-- Witness for `C7_exit_codes` at a concrete export request. -/
theorem C7_exit_codes_witness :
    YEAR_TO_API_CODE.lookup exportArgs.year = some "1C" ∧ passesArgChecks exportArgs ∧
    (runMain exportArgs (fetchConst FetchResult.failed) true).exitCode = 1 ∧
    (runMain exportArgs (fetchConst (FetchResult.ok [])) true).exitCode = 0 ∧
    (runMain exportArgs (fetchConst (FetchResult.ok rawSample)) true).exitCode = 0 := by
  have hpass : passesArgChecks exportArgs := ⟨rfl, Or.inr (Or.inr (by decide))⟩
  have hok : processData rawSample = Except.ok dfSample := by rfl
  exact ⟨rfl, hpass,
    ((C7_exit_codes exportArgs (fetchConst FetchResult.failed) true).2.2 "1C" rfl hpass).1 rfl,
    ((C7_exit_codes exportArgs (fetchConst (FetchResult.ok [])) true).2.2 "1C" rfl hpass).2.1 rfl,
    ((C7_exit_codes exportArgs (fetchConst (FetchResult.ok rawSample)) true).2.2 "1C" rfl
        hpass).2.2 rawSample dfSample rfl hok⟩

/-- **C5**: normalization is **not** error-free on every raw input: a seat
field holding the numeric string `"5.7"` survives `to_numeric(...,
errors='coerce')` as the float `5.7` and then makes `.astype('Int64')`
raise (`cannot safely cast non-equivalent float64 to int64`), so
`process_data` propagates an exception instead of storing null. -/
theorem C5_fractional_seat_raises :
    processData badSeatRaw =
      Except.error "cannot safely cast non-equivalent float64 to int64" := by
  rfl

/-- Lookup skips a head pair with a different key. -/
theorem lookup_cons_ne (c k : String) (x : Cell) (l : List (String × Cell))
    (h : c ≠ k) : (((k, x) :: l).lookup c) = l.lookup c := by
  rw [List.lookup_cons]
  have hb : (c == k) = false := by simp [h]
  rw [hb]

/-- Lookup in a row built by tagging each column with a computed cell. -/
theorem lookup_map_pair (f : String → Cell) (c : String) :
    ∀ (cols : List String), c ∈ cols →
      (cols.map (fun c2 => (c2, f c2))).lookup c = some (f c) := by
  intro cols
  induction cols with
  | nil => intro h; simp at h
  | cons c0 cs ih =>
    intro hmem
    rw [List.map_cons]
    by_cases hc : c = c0
    · subst hc
      exact List.lookup_cons_self
    · rw [lookup_cons_ne c c0 (f c0) _ hc]
      exact ih (by
        rcases List.mem_cons.mp hmem with h | h
        · exact absurd h hc
        · exact h)

/-- Dropping pairs with a different key does not change a lookup. -/
theorem lookup_filter_ne (c cdrop : String) (hne : c ≠ cdrop) :
    ∀ (r : List (String × Cell)),
      (r.filter (fun p => p.1 ≠ cdrop)).lookup c = r.lookup c := by
  intro r
  induction r with
  | nil => rfl
  | cons p ps ih =>
    obtain ⟨k, x⟩ := p
    rw [List.filter_cons]
    by_cases hk : k = cdrop
    · rw [if_neg (by simp [hk])]
      rw [ih, lookup_cons_ne c k x ps (by rw [hk]; exact hne)]
    · rw [if_pos (by simp [hk])]
      by_cases hc : c = k
      · subst hc
        rw [List.lookup_cons_self, List.lookup_cons_self]
      · rw [lookup_cons_ne c k x _ hc, lookup_cons_ne c k x ps hc]
        exact ih

/-- Appending a pair with a different key does not change a defaulted
lookup. -/
theorem lookup_append_single (c v : String) (x : Cell) (hne : v ≠ c) :
    ∀ (r : List (String × Cell)),
      ((r ++ [(v, x)]).lookup c).getD Cell.na = (r.lookup c).getD Cell.na := by
  intro r
  induction r with
  | nil =>
    rw [List.nil_append, lookup_cons_ne c v x [] (Ne.symm hne)]
  | cons p ps ih =>
    obtain ⟨k, y⟩ := p
    rw [List.cons_append]
    by_cases hc : c = k
    · subst hc
      rw [List.lookup_cons_self, List.lookup_cons_self]
    · rw [lookup_cons_ne c k y _ hc, lookup_cons_ne c k y ps hc]
      exact ih

/-- A raw code outside the mapping keys renames to itself. -/
theorem renameName_not_key (c : String) (h : c ∉ mappedKeys) : renameName c = c := by
  unfold renameName
  have : COLUMN_MAPPING.lookup c = none := by
    rw [List.lookup_eq_none_iff]
    intro p hp
    simp only [bne_iff_ne, ne_eq]
    intro hc
    exact h (hc ▸ List.mem_map_of_mem Prod.fst hp)
  rw [this]
  rfl

/-- A mapping key renames into the canonical name set. -/
theorem renameName_mem_values (k : String) (h : k ∈ mappedKeys) :
    renameName k ∈ mappedValues := by
  unfold renameName
  obtain ⟨p, hp, hfst⟩ := List.mem_map.mp h
  have hsome : (COLUMN_MAPPING.lookup k).isSome = true := by
    rw [List.lookup_isSome_iff]
    exact ⟨p, hp, by simp [hfst]⟩
  cases hlk : COLUMN_MAPPING.lookup k with
  | none => rw [hlk] at hsome; simp at hsome
  | some v =>
    obtain ⟨l1, l2, heq, -⟩ := List.lookup_eq_some_iff.mp hlk
    unfold mappedValues
    rw [heq, List.map_append, List.map_cons]
    exact List.mem_append_right _ (List.mem_cons_self _ _)

/-- Renaming the keys of a row does not change a lookup at a column that is
neither a raw mapping key nor a canonical name. -/
theorem lookup_rename_row (c : String) (hk : c ∉ mappedKeys) (hv : c ∉ mappedValues) :
    ∀ (r : List (String × Cell)),
      (r.map (fun p => (renameName p.1, p.2))).lookup c = r.lookup c := by
  intro r
  induction r with
  | nil => rfl
  | cons p ps ih =>
    obtain ⟨k, x⟩ := p
    rw [List.map_cons]
    dsimp only
    by_cases hkc : k = c
    · subst hkc
      rw [renameName_not_key k hk, List.lookup_cons_self, List.lookup_cons_self]
    · have hrn : renameName k ≠ c := by
        by_cases hmem : k ∈ mappedKeys
        · intro hcon
          exact hv (hcon ▸ renameName_mem_values k hmem)
        · rw [renameName_not_key k hmem]
          exact hkc
      rw [lookup_cons_ne c (renameName k) x _ (fun h => hrn h.symm),
        lookup_cons_ne c k x ps (fun h => hkc h.symm)]
      exact ih

/-- Transforming the cells of one column does not change a lookup at a
different column. -/
theorem lookup_mapCol_ne (c ctgt : String) (f : Cell → Cell) (hne : c ≠ ctgt) :
    ∀ (r : List (String × Cell)),
      (r.map (fun p => if p.1 = ctgt then (p.1, f p.2) else p)).lookup c = r.lookup c := by
  intro r
  induction r with
  | nil => rfl
  | cons p ps ih =>
    obtain ⟨k, x⟩ := p
    rw [List.map_cons]
    by_cases hkt : k = ctgt
    · rw [if_pos (by simp [hkt])]
      dsimp only
      rw [lookup_cons_ne c k (f x) _ (fun h => hne (h.trans hkt)),
        lookup_cons_ne c k x ps (fun h => hne (h.trans hkt))]
      exact ih
    · rw [if_neg (by simp [hkt])]
      by_cases hc : c = k
      · subst hc
        rw [List.lookup_cons_self, List.lookup_cons_self]
      · rw [lookup_cons_ne c k x _ hc, lookup_cons_ne c k x ps hc]
        exact ih

/-- Cols after the `_id` drop. -/
theorem dropColDF_cols (d : DF) (c : String) :
    (dropColDF d c).cols = d.cols.filter (fun x => x ≠ c) := by
  unfold dropColDF
  split
  · rfl
  · next h =>
    rw [eq_comm, List.filter_eq_self]
    intro x hx
    simp only [ne_eq, decide_eq_true_eq]
    intro hxc
    exact h (by subst hxc; simpa using hx)

/-- A column built by `pd.DataFrame` from raw records. -/
theorem getColDF_buildDF (raw : List (List (String × Cell))) (c : String)
    (hc : c ∈ rawCols raw) : getColDF (buildDF raw) c = rawColumn raw c := by
  unfold getColDF buildDF rawColumn
  dsimp only
  rw [List.map_map]
  refine List.map_congr_left ?_
  intro r hr
  show ((buildRow (rawCols raw) r).lookup c).getD Cell.na = (r.lookup c).getD Cell.na
  unfold buildRow
  rw [lookup_map_pair (fun c2 => (r.lookup c2).getD Cell.na) c (rawCols raw) hc]
  rfl

/-- Dropping a different column leaves a column unchanged. -/
theorem getColDF_dropColDF (d : DF) (c cdrop : String) (hne : c ≠ cdrop) :
    getColDF (dropColDF d cdrop) c = getColDF d c := by
  unfold dropColDF
  split
  · unfold getColDF
    dsimp only
    rw [List.map_map]
    refine List.map_congr_left ?_
    intro r hr
    show ((r.filter (fun p => p.1 ≠ cdrop)).lookup c).getD Cell.na = _
    rw [lookup_filter_ne c cdrop hne r]
  · rfl

/-- Renaming leaves a column outside the mapping unchanged. -/
theorem getColDF_renameDF (d : DF) (c : String) (hk : c ∉ mappedKeys)
    (hv : c ∉ mappedValues) : getColDF (renameDF d) c = getColDF d c := by
  unfold renameDF getColDF
  dsimp only
  rw [List.map_map]
  refine List.map_congr_left ?_
  intro r hr
  show ((r.map (fun p => (renameName p.1, p.2))).lookup c).getD Cell.na = _
  rw [lookup_rename_row c hk hv r]

/-- Adding a null column elsewhere leaves a column unchanged. -/
theorem getColDF_addColNA (d : DF) (c v : String) (hne : v ≠ c) :
    getColDF (addColNA d v) c = getColDF d c := by
  unfold addColNA getColDF
  dsimp only
  rw [List.map_map]
  refine List.map_congr_left ?_
  intro r hr
  exact lookup_append_single c v Cell.na hne r

/-- The add-missing loop leaves a non-canonical column unchanged. -/
theorem getColDF_addMissingFold (c : String) :
    ∀ (L : List (String × String)) (d : DF), (∀ kv ∈ L, kv.2 ≠ c) →
      getColDF (L.foldl (fun d kv =>
        if d.cols.contains kv.2 then d else addColNA d kv.2) d) c = getColDF d c := by
  intro L
  induction L with
  | nil => intro d _; rfl
  | cons kv L ih =>
    intro d h
    rw [List.foldl_cons]
    split
    · exact ih d (fun p hp => h p (List.mem_cons_of_mem kv hp))
    · rw [ih (addColNA d kv.2) (fun p hp => h p (List.mem_cons_of_mem kv hp))]
      exact getColDF_addColNA d c kv.2 (h kv (List.mem_cons_self kv L))

/-- Mapping the cells of a different column leaves a column unchanged. -/
theorem getColDF_mapColDF (d : DF) (c ctgt : String) (f : Cell → Cell)
    (hne : c ≠ ctgt) : getColDF (mapColDF d ctgt f) c = getColDF d c := by
  unfold mapColDF getColDF
  dsimp only
  rw [List.map_map]
  refine List.map_congr_left ?_
  intro r hr
  show ((r.map (fun p => if p.1 = ctgt then (p.1, f p.2) else p)).lookup c).getD Cell.na = _
  rw [lookup_mapCol_ne c ctgt f hne r]

/-- The cutoff-coercion loop leaves a non-canonical column unchanged. -/
theorem getColDF_cutoffFold (c : String) :
    ∀ (L : List String) (d : DF), (∀ c2 ∈ L, c2 ≠ c) →
      getColDF (L.foldl (fun d c2 =>
        if d.cols.contains c2 then mapColDF d c2 coerceNum else d) d) c = getColDF d c := by
  intro L
  induction L with
  | nil => intro d _; rfl
  | cons c0 L ih =>
    intro d h
    rw [List.foldl_cons]
    split
    · rw [ih (mapColDF d c0 coerceNum) (fun p hp => h p (List.mem_cons_of_mem c0 hp))]
      exact getColDF_mapColDF d c c0 coerceNum (fun he => (h c0 (List.mem_cons_self c0 L)) he.symm)
    · exact ih d (fun p hp => h p (List.mem_cons_of_mem c0 hp))

/-- `mapColDF` keeps the column list. -/
theorem mapColDF_cols (d : DF) (c : String) (f : Cell → Cell) :
    (mapColDF d c f).cols = d.cols := rfl

/-- A successful `Int64` cast keeps the column list. -/
theorem astypeInt64_cols (d d2 : DF) (c : String)
    (h : astypeInt64 d c = Except.ok d2) : d2.cols = d.cols := by
  unfold astypeInt64 at h
  split at h
  · exact Except.noConfusion h
  · cases h
    rfl

/-- A successful `Int64` cast of a different column leaves a column
unchanged. -/
theorem getColDF_astypeInt64 (d d2 : DF) (c ctgt : String) (hne : c ≠ ctgt)
    (h : astypeInt64 d ctgt = Except.ok d2) : getColDF d2 c = getColDF d c := by
  unfold astypeInt64 at h
  split at h
  · exact Except.noConfusion h
  · cases h
    exact getColDF_mapColDF d c ctgt _ hne

/-- The seat-conversion loop keeps the column list. -/
theorem seatFold_cols :
    ∀ (L : List String) (d d2 : DF),
      (L.foldlM (fun d c2 =>
        if d.cols.contains c2 then astypeInt64 (mapColDF d c2 coerceNum) c2
        else Except.ok d) d) = Except.ok d2 → d2.cols = d.cols := by
  intro L
  induction L with
  | nil =>
    intro d d2 h
    cases h
    rfl
  | cons c0 L ih =>
    intro d d2 h
    rw [List.foldlM_cons] at h
    revert h
    split
    · intro h
      cases hstep : astypeInt64 (mapColDF d c0 coerceNum) c0 with
      | error e =>
        rw [hstep] at h
        exact Except.noConfusion h
      | ok dm =>
        rw [hstep] at h
        have h2 := ih dm d2 h
        rw [h2, astypeInt64_cols _ _ _ hstep]
        rfl
    · intro h
      exact ih d d2 h

/-- The seat-conversion loop leaves a non-seat column unchanged. -/
theorem getColDF_seatFold (c : String) :
    ∀ (L : List String) (d d2 : DF), (∀ c2 ∈ L, c2 ≠ c) →
      (L.foldlM (fun d c2 =>
        if d.cols.contains c2 then astypeInt64 (mapColDF d c2 coerceNum) c2
        else Except.ok d) d) = Except.ok d2 → getColDF d2 c = getColDF d c := by
  intro L
  induction L with
  | nil =>
    intro d d2 _ h
    cases h
    rfl
  | cons c0 L ih =>
    intro d d2 hL h
    rw [List.foldlM_cons] at h
    revert h
    split
    · intro h
      cases hstep : astypeInt64 (mapColDF d c0 coerceNum) c0 with
      | error e =>
        rw [hstep] at h
        exact Except.noConfusion h
      | ok dm =>
        rw [hstep] at h
        have hne : c ≠ c0 := fun he => (hL c0 (List.mem_cons_self c0 L)) he.symm
        rw [ih dm d2 (fun p hp => hL p (List.mem_cons_of_mem c0 hp)) h,
          getColDF_astypeInt64 _ _ c c0 hne hstep,
          getColDF_mapColDF d c c0 coerceNum hne]
    · intro h
      exact ih d d2 (fun p hp => hL p (List.mem_cons_of_mem c0 hp)) h

/-- Selecting a column list reads each selected column unchanged. -/
theorem getColDF_selectColsDF (d : DF) (cs : List String) (c : String)
    (hc : c ∈ cs) : getColDF (selectColsDF d cs) c = getColDF d c := by
  unfold selectColsDF getColDF
  dsimp only
  rw [List.map_map]
  refine List.map_congr_left ?_
  intro r hr
  show ((cs.map (fun c2 => (c2, (r.lookup c2).getD Cell.na))).lookup c).getD Cell.na = _
  rw [lookup_map_pair (fun c2 => (r.lookup c2).getD Cell.na) c cs hc]
  rfl

/-- Cols after the add-missing loop: the original columns followed by the
missing mapped names, in declared order (the mapped names are distinct, so
later checks against the grown column list agree with checks against the
original one). -/
theorem addMissingFold_cols :
    ∀ (L : List (String × String)) (d : DF), (L.map Prod.snd).Nodup →
      (L.foldl (fun d kv =>
        if d.cols.contains kv.2 then d else addColNA d kv.2) d).cols =
        d.cols ++ (L.map Prod.snd).filter (fun v => !d.cols.contains v) := by
  intro L
  induction L with
  | nil =>
    intro d _
    simp
  | cons kv L ih =>
    intro d hnd
    rw [List.map_cons] at hnd
    have hhead : kv.2 ∉ L.map Prod.snd := (List.nodup_cons.mp hnd).1
    have htail : (L.map Prod.snd).Nodup := (List.nodup_cons.mp hnd).2
    rw [List.foldl_cons, List.map_cons, List.filter_cons]
    split
    · next hcont =>
      have : (!d.cols.contains kv.2) = false := by
        rw [hcont]
        rfl
      rw [this]
      exact ih d htail
    · next hcont =>
      have hcf : d.cols.contains kv.2 = false := by
        cases hv : d.cols.contains kv.2 with
        | true => exact absurd hv hcont
        | false => rfl
      have : (!d.cols.contains kv.2) = true := by
        rw [hcf]
        rfl
      rw [this]
      rw [ih (addColNA d kv.2) htail]
      show (d.cols ++ [kv.2]) ++ _ = _
      rw [List.append_assoc, List.singleton_append]
      congr 1
      congr 1
      refine List.filter_congr ?_
      intro v hv
      have hvne : v ≠ kv.2 := fun he => hhead (he ▸ hv)
      show (!(d.cols ++ [kv.2]).contains v) = (!d.cols.contains v)
      simp [hvne]

/-- The cutoff-coercion loop keeps the column list. -/
theorem cutoffFold_cols :
    ∀ (L : List String) (d : DF),
      (L.foldl (fun d c2 =>
        if d.cols.contains c2 then mapColDF d c2 coerceNum else d) d).cols = d.cols := by
  intro L
  induction L with
  | nil => intro d; rfl
  | cons c0 L ih =>
    intro d
    rw [List.foldl_cons]
    split
    · rw [ih (mapColDF d c0 coerceNum)]
      rfl
    · exact ih d

/-- Every first-seen raw column comes from some record's keys. -/
theorem mem_rawCols_source :
    ∀ (raw : List (List (String × Cell))) (acc : List String) (k : String),
      k ∈ raw.foldl (fun acc r =>
        acc ++ ((r.map Prod.fst).filter (fun c => !acc.contains c))) acc →
      k ∈ acc ∨ ∃ r ∈ raw, k ∈ r.map Prod.fst := by
  intro raw
  induction raw with
  | nil =>
    intro acc k h
    exact Or.inl h
  | cons r rs ih =>
    intro acc k h
    rw [List.foldl_cons] at h
    rcases ih _ k h with h2 | h2
    · rcases List.mem_append.mp h2 with h3 | h3
      · exact Or.inl h3
      · exact Or.inr ⟨r, List.mem_cons_self r rs, (List.mem_filter.mp h3).1⟩
    · obtain ⟨r2, hr2, hk⟩ := h2
      exact Or.inr ⟨r2, List.mem_cons_of_mem r hr2, hk⟩

/-- The renamed, `_id`-stripped raw column list, filtered down to
non-canonical names, is exactly the raw columns outside the mapping: mapped
keys rename into canonical names (and are filtered away), everything else
renames to itself. -/
theorem extras_fusion :
    ∀ (l : List String), (∀ k ∈ l, k ∉ mappedValues) →
      ((l.filter (fun x => x ≠ "_id")).map renameName).filter
          (fun c => !mappedValues.contains c) =
        l.filter (fun c => c ≠ "_id" && !mappedKeys.contains c) := by
  intro l
  induction l with
  | nil => intro _; rfl
  | cons k l ih =>
    intro h
    have hk : k ∉ mappedValues := h k (List.mem_cons_self k l)
    have htail : ∀ p ∈ l, p ∉ mappedValues :=
      fun p hp => h p (List.mem_cons_of_mem k hp)
    rw [List.filter_cons, List.filter_cons]
    by_cases hid : k = "_id"
    · rw [if_neg (by simp [hid]), if_neg (by simp [hid])]
      exact ih htail
    · rw [if_pos (by simp [hid])]
      rw [List.map_cons, List.filter_cons]
      by_cases hmk : k ∈ mappedKeys
      · have hmem := renameName_mem_values k hmk
        rw [if_neg (by simp [hmem]), if_neg (by simp [hid, hmk])]
        exact ih htail
      · rw [renameName_not_key k hmk]
        rw [if_pos (by simp [hk]), if_pos (by simp [hid, hmk])]
        rw [ih htail]

/-- **C8**: in every normalized (nonempty) table the canonical columns come
first in declared order, and raw columns outside the rename mapping (other
than `_id`) are appended afterwards with their cells untouched.  The
hypothesis asks that raw field names avoid the canonical display names, so
that the rename cannot merge columns. -/
theorem C8_column_ordering (raw : List (List (String × Cell))) (df : DF)
    (hW : ∀ r ∈ raw, ∀ p ∈ r, Prod.fst (α := String) (β := Cell) p ∉ mappedValues)
    (hraw : raw ≠ []) (hok : processData raw = Except.ok df) :
    df.cols = mappedValues ++ extraRawCols raw ∧
    ∀ c ∈ extraRawCols raw, getColDF df c = rawColumn raw c := by
  have hW2 : ∀ k ∈ rawCols raw, k ∉ mappedValues := by
    intro k hk
    unfold rawCols at hk
    rcases mem_rawCols_source raw [] k hk with h | ⟨r, hr, hkr⟩
    · simp at h
    · obtain ⟨p, hp, hfst⟩ := List.mem_map.mp hkr
      exact hfst ▸ hW r hr p hp
  unfold processData at hok
  rw [if_neg (fun h => hraw (List.isEmpty_iff.mp h))] at hok
  dsimp only at hok
  cases hF : seatCols.foldlM (fun d c =>
      if d.cols.contains c then astypeInt64 (mapColDF d c coerceNum) c
      else Except.ok d)
      (CUTOFF_COLUMNS.foldl (fun d c =>
        if d.cols.contains c then mapColDF d c coerceNum else d)
        (addMissing (renameDF (dropColDF (buildDF raw) "_id")))) with
  | error e =>
    rw [hF] at hok
    exact Except.noConfusion hok
  | ok df5 =>
    rw [hF] at hok
    dsimp only at hok
    have hdf := (Except.ok.inj hok).symm
    -- column list of the frame entering the reorder
    have hcols2 : (renameDF (dropColDF (buildDF raw) "_id")).cols =
        ((rawCols raw).filter (fun x => x ≠ "_id")).map renameName := by
      show (dropColDF (buildDF raw) "_id").cols.map renameName = _
      rw [dropColDF_cols]
      rfl
    have hcols5 : df5.cols =
        ((rawCols raw).filter (fun x => x ≠ "_id")).map renameName ++
          mappedValues.filter (fun v =>
            !(((rawCols raw).filter (fun x => x ≠ "_id")).map renameName).contains v) := by
      rw [seatFold_cols seatCols _ df5 hF, cutoffFold_cols]
      show (addMissing (renameDF (dropColDF (buildDF raw) "_id"))).cols = _
      unfold addMissing
      rw [addMissingFold_cols COLUMN_MAPPING _ (by decide), hcols2]
      rfl
    have hordered : (COLUMN_MAPPING.map Prod.snd).filter
        (fun c => df5.cols.contains c) = COLUMN_MAPPING.map Prod.snd := by
      rw [List.filter_eq_self]
      intro v hv
      have hvmem : v ∈ df5.cols := by
        rw [hcols5]
        by_cases h2 : v ∈ ((rawCols raw).filter (fun x => x ≠ "_id")).map renameName
        · exact List.mem_append.mpr (Or.inl h2)
        · refine List.mem_append.mpr (Or.inr (List.mem_filter.mpr ⟨hv, ?_⟩))
          simp
          intro x hx hxid hre
          exact h2 (List.mem_map.mpr ⟨x, List.mem_filter.mpr ⟨hx, by simp [hxid]⟩, hre⟩)
      simpa using hvmem
    have hextra : df5.cols.filter (fun c =>
        !((COLUMN_MAPPING.map Prod.snd).filter (fun c => df5.cols.contains c)).contains c) =
        extraRawCols raw := by
      rw [hordered, hcols5, List.filter_append]
      have hsecond : (mappedValues.filter (fun v =>
          !(((rawCols raw).filter (fun x => x ≠ "_id")).map renameName).contains v)).filter
            (fun c => !(COLUMN_MAPPING.map Prod.snd).contains c) = [] := by
        rw [List.filter_eq_nil_iff]
        intro v hv
        have hvm : v ∈ mappedValues := List.mem_of_mem_filter hv
        simp only [Bool.not_eq_true']
        simpa [mappedValues] using hvm
      rw [hsecond, List.append_nil]
      unfold extraRawCols
      have := extras_fusion (rawCols raw) hW2
      unfold mappedValues at this
      exact this
    constructor
    · rw [hdf]
      show (COLUMN_MAPPING.map Prod.snd).filter (fun c => df5.cols.contains c) ++
          df5.cols.filter (fun c =>
            !((COLUMN_MAPPING.map Prod.snd).filter
              (fun c => df5.cols.contains c)).contains c) =
          mappedValues ++ extraRawCols raw
      rw [hextra, hordered]
      rfl
    · intro c hcx
      have hc1 : c ∈ rawCols raw := List.mem_of_mem_filter hcx
      have hprops := (List.mem_filter.mp hcx).2
      rw [Bool.and_eq_true] at hprops
      have hid : c ≠ "_id" := by simpa using hprops.1
      have hmk : c ∉ mappedKeys := by simpa using hprops.2
      have hmv : c ∉ mappedValues := hW2 c hc1
      rw [hdf]
      rw [getColDF_selectColsDF df5 _ c (by
        refine List.mem_append_right _ ?_
        rw [hextra]
        exact hcx)]
      rw [getColDF_seatFold c seatCols _ df5 (fun c2 hc2 => fun he => hmv (by
        rw [← he]
        exact List.mem_of_mem_filter hc2)) hF]
      rw [getColDF_cutoffFold c CUTOFF_COLUMNS _ (fun c2 hc2 => fun he => hmv (by
        rw [← he]
        exact cutoff_mem_mapped c2 hc2))]
      show getColDF (addMissing (renameDF (dropColDF (buildDF raw) "_id"))) c = _
      unfold addMissing
      rw [getColDF_addMissingFold c COLUMN_MAPPING _ (fun kv hkv => fun he => hmv (by
        rw [← he]
        exact List.mem_map_of_mem Prod.snd hkv))]
      rw [getColDF_renameDF _ c hmk hmv]
      rw [getColDF_dropColDF _ c "_id" hid]
      exact getColDF_buildDF raw c hc1

/-- Witness for `C8_column_ordering` on a concrete raw input with an `_id`
column and an unmapped `zzz` column. -/
theorem C8_column_ordering_witness :
    (∀ r ∈ rawSample, ∀ p ∈ r, Prod.fst (α := String) (β := Cell) p ∉ mappedValues) ∧
    rawSample ≠ [] ∧ processData rawSample = Except.ok dfSample ∧
    dfSample.cols = mappedValues ++ extraRawCols rawSample ∧
    "zzz" ∈ extraRawCols rawSample ∧
    getColDF dfSample "zzz" = rawColumn rawSample "zzz" := by
  have hW : ∀ r ∈ rawSample, ∀ p ∈ r,
      Prod.fst (α := String) (β := Cell) p ∉ mappedValues := by decide
  have hok : processData rawSample = Except.ok dfSample := by rfl
  have h := C8_column_ordering rawSample dfSample hW (by decide) hok
  exact ⟨hW, by decide, hok, h.1, by decide, h.2 "zzz" (by decide)⟩
